import Mathlib

/- Verification of the milestone-parsing and billing-update scripts of the
   staffing-tracker repository (src/backend/src/scripts).

   Python strings are modelled as lists of unicode characters (`Str`).
   Regular-expression operations are hand-compiled to executable scanning
   functions over `Str`, following Python `re` semantics (leftmost match,
   greedy/lazy quantifier backtracking) for the concrete patterns used by
   the scripts.  Character classes are modelled over ASCII (plus the CJK
   characters the scripts mention explicitly); the Unicode corner cases of
   Python's `re.IGNORECASE` and `\w` (e.g. U+212A matching `[a-z0-9]`) are
   outside the model.  Python `set`s of strings are modelled as `List Str`
   with membership semantics, and the PostgreSQL database as explicit
   record structures with the relevant columns.  -/

set_option maxHeartbeats 1000000

namespace StaffingTracker

/-- Python strings, modelled as lists of characters. -/
abbrev Str := List Char

/-- ASCII lowercase letter. -/
def isAsciiLower (c : Char) : Bool := 'a' ≤ c && c ≤ 'z'

/-- ASCII uppercase letter. -/
def isAsciiUpper (c : Char) : Bool := 'A' ≤ c && c ≤ 'Z'

/-- ASCII letter: the character class `[a-z]` under `re.IGNORECASE`. -/
def isAsciiLetter (c : Char) : Bool := isAsciiLower c || isAsciiUpper c

/-- ASCII digit: the character class `\d` (restricted to ASCII). -/
def isAsciiDigit (c : Char) : Bool := '0' ≤ c && c ≤ '9'

/-- Character class `[a-z0-9]` under `re.IGNORECASE`: ASCII letter or digit.
This is the class of the smart parser's `ORDINAL_PATTERN`
(smart-parse-milestones.py line 60) and of the ordinal regex in
`extract_strikethrough` (line 391). -/
def isOrdChar (c : Char) : Bool := isAsciiDigit c || isAsciiLetter c

/-- Whitespace as recognised by Python's `str.strip` and the regex class
`\s` (ASCII part). -/
def isPySpace (c : Char) : Bool :=
  c = ' ' || c = '\t' || c = '\n' || c = '\r' || c = '\x0b' || c = '\x0c'

/-- Python `str.strip()`: drop leading and trailing whitespace. -/
def pyStrip (s : Str) : Str :=
  ((s.dropWhile isPySpace).reverse.dropWhile isPySpace).reverse

/-- Python `str.lower()` (ASCII case mapping). -/
def lowerStr (s : Str) : Str := s.map Char.toLower

/-- Python slice `s[a:b]` for `0 ≤ a ≤ b`. -/
def pySlice (s : Str) (a b : Nat) : Str := (s.drop a).take (b - a)

/-- Ordinal marker string `"(c)"` built from a matched character, lowercased:
Python `f"({match.group(1).lower()})"`. -/
def mkOrd (c : Char) : Str := ['(', c.toLower, ')']

/-- Head match of the ordinal pattern `\(([a-z0-9])\)` (with `re.IGNORECASE`):
returns the captured character when the string begins with `'('`, an
alphanumeric ASCII character, `')'`. -/
def ordMatchHead : Str → Option Char
  | a :: c :: b :: _ => if a = '(' ∧ b = ')' ∧ isOrdChar c then some c else none
  | _ => none

/-- All positions at which the ordinal pattern matches, with the captured
character, scanning every index of the string.  `i` is the index of the
first character of the argument within the whole text. -/
def ordOccur (i : Nat) : Str → List (Nat × Char)
  | [] => []
  | c0 :: rest =>
    (match ordMatchHead (c0 :: rest) with
     | some c => [(i, c)]
     | none => []) ++ ordOccur (i + 1) rest

/-- Python `re.finditer` for the ordinal pattern `\(([a-z0-9])\)`: scan left
to right, and resume after the end of each (3-character) match.  Because the
pattern begins with `'('` and never matches `'('` at its second or third
position, matches cannot overlap, so this agrees with `ordOccur`
(proved in `ordScan_eq_ordOccur`). -/
def ordScan (i : Nat) : Str → List (Nat × Char)
  | '(' :: c :: ')' :: rest =>
    if isOrdChar c then (i, c) :: ordScan (i + 3) rest
    else ordScan (i + 1) (c :: ')' :: rest)
  | _ :: rest => ordScan (i + 1) rest
  | [] => []

/-- Milestone record produced by `SmartMilestoneParser.parse`
(smart-parse-milestones.py lines 126-136).  Only the fields that the
verified properties mention are modelled: `ordinal`, `completed` and
`raw_text`.  The remaining fields (title, description, amounts, percentage,
is_conditional) are computed from `milestone_text` by further regexes that
no claim refers to, and are omitted from the model. -/
structure Milestone where
  ordinal : Str
  completed : Bool
  rawText : Str
deriving DecidableEq

/-- Segmentation loop of `SmartMilestoneParser.parse` (lines 94-136): one
milestone per ordinal match, each spanning the text from its match start to
the start of the next match (or the end of the text), stripped.
`completed` is set exactly when the (lowercased) marker is a member of the
strikethrough set. -/
def smartSegs (text : Str) (struck : List Str) : List (Nat × Char) → List Milestone
  | [] => []
  | (p, c) :: rest =>
    let endPos : Nat :=
      match rest with
      | [] => text.length
      | (q, _) :: _ => q
    let o := mkOrd c
    { ordinal := o
      completed := decide (o ∈ struck)
      rawText := pyStrip (pySlice text p endPos) } :: smartSegs text struck rest

/-- Embedding of `SmartMilestoneParser.parse` (smart-parse-milestones.py
lines 77-147), milestone list component.  The metadata dictionary (LSD date,
bonus fields) returned alongside is modelled separately by `parseLsdDate`;
if no ordinal matches, the list is empty (line 90-91). -/
def smartParse (text : Str) (struck : List Str) : List Milestone :=
  smartSegs text struck (ordScan 0 text)

/-- Python set insertion (`s.add(x)`), modelling sets of strings as lists
with membership semantics. -/
def setAdd (s : List Str) (x : Str) : List Str := if x ∈ s then s else x :: s

/-- Test that `needle` is a prefix of `hay` (auxiliary for substring and
alternation matching). -/
def strHeadMatch : Str → Str → Bool
  | [], _ => true
  | _ :: _, [] => false
  | a :: as, b :: bs => a = b && strHeadMatch as bs

/-- Python substring test `needle in hay`. -/
def strContains (hay needle : Str) : Bool :=
  strHeadMatch needle hay ||
    (match hay with
     | [] => false
     | _ :: t => strContains t needle)

/-- Digit value of an ASCII digit character. -/
def digitVal (c : Char) : Nat := c.toNat - '0'.toNat

/-- Numeric value of a string of ASCII digits. -/
def natOfDigits (s : Str) : Nat := s.foldl (fun a c => a * 10 + digitVal c) 0

/-- Python `int(text)` restricted to non-negative decimal literals: the
shared-string indices the scripts parse.  Anything else (including the
signs and whitespace `int` would accept, which cannot occur in a `<v>`
element written by Excel) yields `none`, matching the scripts'
`except ValueError` handler. -/
def pyParseNat (s : Str) : Option Nat :=
  if s ≠ [] ∧ s.all isAsciiDigit then some (natOfDigits s) else none

/-- Rational value of a decimal literal `digits` or `digits.digits`
(Python `float` on the captured amount/percent strings; the scripts only
feed it strings of this shape, for which `float` is exact). -/
def ratOfDecimal (s : Str) : ℚ :=
  let ip := s.takeWhile isAsciiDigit
  match s.dropWhile isAsciiDigit with
  | '.' :: f => (natOfDigits ip : ℚ) + (natOfDigits f : ℚ) / (10 : ℚ) ^ f.length
  | _ => (natOfDigits ip : ℚ)

/-- Python `float` on a comma-stripped `[\d,]+` capture: fails (ValueError)
exactly when no digits remain. -/
def pyFloatDigits (s : Str) : Option ℚ :=
  if s = [] then none else some (ratOfDecimal s)

/- ----------------------------------------------------------------------
   extract_strikethrough (smart-parse-milestones.py lines 354-399):
   shared strings, rich-text runs and the worksheet scan.
   ---------------------------------------------------------------------- -/

/-- Rich-text run (`<r>` element) of a shared string: its text (`<t>`) and
whether its run properties carry a `<strike/>` element. -/
structure RichRun where
  text : Str
  struck : Bool
deriving DecidableEq

/-- Shared-string item (`<si>` element): its list of rich-text runs.  An
item with plain text and no runs is modelled by an empty run list, exactly
as the script's `si.findall('.//main:r')` loop leaves it. -/
structure SharedString where
  parts : List RichRun
deriving DecidableEq

/-- Computed `has_strike` flag of a shared-string item (set while scanning
the runs: true when some run is struck). -/
def siHasStrike (si : SharedString) : Bool := si.parts.any (fun r => r.struck)

/-- Ordinal markers found in the struck runs of one shared-string item
(smart-parse-milestones.py lines 388-392): a set accumulated over runs with
`struck` set, adding `f"({m[1].lower()})"` for every ordinal-pattern match
in the run's text. -/
def siStruckOrdinals (si : SharedString) : List Str :=
  si.parts.foldl
    (fun acc r =>
      if r.struck then (ordScan 0 r.text).foldl (fun a pc => setAdd a (mkOrd pc.2)) acc
      else acc)
    []

/-- Worksheet cell (`<c>` element): reference (e.g. "I5"), type attribute
and value text. -/
structure XCell where
  ref : Str
  typ : Option Str
  v : Option Str
deriving DecidableEq

/-- Worksheet row (`<row>` element): row number attribute and cells. -/
structure XRow where
  rowNum : Nat
  cells : List XCell
deriving DecidableEq

/-- Strikethrough ordinals contributed by one cell (smart-parse-milestones.py
lines 381-396): the cell's reference must start with 'I', its type must be
's' (shared string), its value must parse as an index into the shared-string
table, the item must have a struck run, and the resulting ordinal set must
be non-empty; otherwise nothing is recorded. -/
def cellStruckOrdinals (ss : List SharedString) (c : XCell) : Option (List Str) :=
  match c.ref with
  | 'I' :: _ =>
    if c.typ = some ['s'] then
      match c.v with
      | some vt =>
        match pyParseNat vt with
        | some idx =>
          match ss.get? idx with
          | some si =>
            if siHasStrike si then
              let os := siStruckOrdinals si
              if os = [] then none else some os
            else none
          | none => none
        | none => none
      | none => none
    else none
  | _ => none

/-- Dictionary update `d[k] = v` on an association list. -/
def dictSet (d : List (Nat × List Str)) (k : Nat) (v : List Str) : List (Nat × List Str) :=
  match d with
  | [] => [(k, v)]
  | (k', v') :: rest => if k' = k then (k, v) :: rest else (k', v') :: dictSet rest k v

/-- Dictionary lookup `d.get(k)`. -/
def dictGet (d : List (Nat × List Str)) (k : Nat) : Option (List Str) :=
  match d with
  | [] => none
  | (k', v') :: rest => if k' = k then some v' else dictGet rest k

/-- One cell's effect on the dictionary being built:
`data[row_num] = ordinals` when the cell qualifies, no change otherwise. -/
def cellFoldStep (ss : List SharedString) (rn : Nat) (d : List (Nat × List Str))
    (c : XCell) : List (Nat × List Str) :=
  match cellStruckOrdinals ss c with
  | some os => dictSet d rn os
  | none => d

/-- One row's effect on the dictionary: fold over its cells. -/
def rowFold (ss : List SharedString) (d : List (Nat × List Str)) (row : XRow) :
    List (Nat × List Str) :=
  row.cells.foldl (cellFoldStep ss row.rowNum) d

/-- Embedding of `extract_strikethrough` (smart-parse-milestones.py lines
354-399), normal path: fold over worksheet rows and their cells, recording
`data[row_num] = ordinals` for every qualifying column-I shared-string cell
with a non-empty struck ordinal set.  (The surrounding try/except that
degrades to a partial result on I/O errors is outside the model.) -/
def extractStrikethrough (ss : List SharedString) (rows : List XRow) : List (Nat × List Str) :=
  rows.foldl (rowFold ss) []

/-- Strikethrough set for a worksheet row as `main` reads it:
`strikethrough_data.get(row_idx, set())` (line 443). -/
def rowStruck (d : List (Nat × List Str)) (r : Nat) : List Str :=
  (dictGet d r).getD []

/- ----------------------------------------------------------------------
   parse_milestones (update-billing-from-excel-v2.py lines 207-279) and the
   two regular expressions it searches per line, with Python backtracking
   semantics compiled by hand.
   ---------------------------------------------------------------------- -/

/-- Python `text.split('\n')`. -/
def splitNl : Str → List Str
  | [] => [[]]
  | '\n' :: rest => [] :: splitNl rest
  | c :: rest =>
    match splitNl rest with
    | [] => [[c]]
    | l :: ls => (c :: l) :: ls

/-- Head match of the percent group `\((\d+(?:\.\d+)?)%\)`: returns the
captured percent string and the remainder after `')'`.  The inner
backtracking (greedy `\d+`, optional fraction) is resolved as Python does:
only the maximal digit runs can be followed by the required `'%'`/`'.'`. -/
def pctGroupHead (s : Str) : Option (Str × Str) :=
  match s with
  | '(' :: rest =>
    let ds := rest.takeWhile isAsciiDigit
    if ds = [] then none
    else
      match rest.dropWhile isAsciiDigit with
      | '.' :: r2 =>
        let fs := r2.takeWhile isAsciiDigit
        if fs = [] then none
        else
          match r2.dropWhile isAsciiDigit with
          | '%' :: ')' :: r4 => some (ds ++ '.' :: fs, r4)
          | _ => none
      | '%' :: ')' :: r4 => some (ds, r4)
      | _ => none
  | _ => none

/-- Character class `[\d,]` of the v2 amount capture. -/
def isDigitComma (c : Char) : Bool := isAsciiDigit c || c = ','

/-- Tail of v2 pattern 1 after the lazy description: `\s*-\s*([\d,]+)`.
The `\s*` runs are deterministic (whitespace can border neither `'-'` nor a
digit/comma), so greedy maximal consumption is exact. -/
def pat1Dash (s : Str) : Option Str :=
  match s.dropWhile isPySpace with
  | '-' :: r =>
    let amt := (r.dropWhile isPySpace).takeWhile isDigitComma
    if amt = [] then none else some amt
  | _ => none

/-- Tail of v2 pattern 1 after the description: optional percent group
(tried greedily first, as `(?:...)?` does), then `\s*-\s*([\d,]+)`.
Returns (percent capture, amount capture). -/
def pat1Tail (s : Str) : Option (Option Str × Str) :=
  match pctGroupHead s with
  | some (p, r) =>
    match pat1Dash r with
    | some amt => some (some p, amt)
    | none =>
      match pat1Dash s with
      | some amt => some (none, amt)
      | none => none
  | none =>
    match pat1Dash s with
    | some amt => some (none, amt)
    | none => none

/-- Tail of v2 pattern 2 after the description: optional percent group then
end of string (`$`; the split lines contain no newline). -/
def pat2Tail (s : Str) : Option (Option Str) :=
  match pctGroupHead s with
  | some (p, r) => if r = [] then some (some p) else none
  | none => if s = [] then some none else none

/-- Lazy description loop `(.+?)`: grow the description one character at a
time (never across a newline, as `.` does not match `'\n'`), trying the
pattern tail after each step.  `dRev` holds the description so far,
reversed.  Returns the description and the tail's captures. -/
def descScan {α : Type} (tail : Str → Option α) : Str → Str → Option (Str × α)
  | _, [] => none
  | dRev, c :: rest =>
    if c = '\n' then none
    else
      match tail rest with
      | some a => some ((c :: dRev).reverse, a)
      | none => descScan tail (c :: dRev) rest

/-- Backtracking for the greedy `\s*` that precedes the lazy description:
start with maximal whitespace consumed (`wsRev` reversed in front of `s`)
and give characters back one at a time when the rest of the pattern cannot
match. -/
def wsDescScan {α : Type} (tail : Str → Option α) : Str → Str → Option (Str × α)
  | wsRev, s =>
    match descScan tail [] s with
    | some r => some r
    | none =>
      match wsRev with
      | [] => none
      | c :: wsRev' => wsDescScan tail wsRev' (c :: s)

/-- Match of v2 pattern 1
`\(([a-z])\)\s*(.+?)(?:\((\d+(?:\.\d+)?)%\))?\s*-\s*([\d,]+)` (IGNORECASE)
anchored at the head of `s`: returns (ordinal char, description, percent
capture, amount capture). -/
def v2Pat1At (s : Str) : Option (Char × Str × Option Str × Str) :=
  match s with
  | '(' :: c :: ')' :: rest =>
    if isAsciiLetter c then
      match wsDescScan pat1Tail ((rest.takeWhile isPySpace).reverse) (rest.dropWhile isPySpace) with
      | some (desc, (p, amt)) => some (c, desc, p, amt)
      | none => none
    else none
  | _ => none

/-- Leftmost search (`re.search`) of v2 pattern 1. -/
def v2Pat1Search : Str → Option (Char × Str × Option Str × Str)
  | [] => none
  | c0 :: rest =>
    match v2Pat1At (c0 :: rest) with
    | some r => some r
    | none => v2Pat1Search rest

/-- Match of v2 pattern 2 `\(([a-z])\)\s*(.+?)(?:\((\d+(?:\.\d+)?)%\))?$`
(IGNORECASE) anchored at the head of `s`. -/
def v2Pat2At (s : Str) : Option (Char × Str × Option Str) :=
  match s with
  | '(' :: c :: ')' :: rest =>
    if isAsciiLetter c then
      match wsDescScan pat2Tail ((rest.takeWhile isPySpace).reverse) (rest.dropWhile isPySpace) with
      | some (desc, p) => some (c, desc, p)
      | none => none
    else none
  | _ => none

/-- Leftmost search (`re.search`) of v2 pattern 2. -/
def v2Pat2Search : Str → Option (Char × Str × Option Str)
  | [] => none
  | c0 :: rest =>
    match v2Pat2At (c0 :: rest) with
    | some r => some r
    | none => v2Pat2Search rest

/-- Milestone dictionary built by v2 `parse_milestones`
(update-billing-from-excel-v2.py lines 266-277). -/
structure V2Milestone where
  ordinal : Str
  title : Str
  description : Str
  triggerText : Str
  amountValue : Option ℚ
  amountCurrency : Option Str
  isPercent : Bool
  percentValue : Option ℚ
  sortOrder : Int
  completed : Bool
deriving DecidableEq

/-- Pattern dispatch per line (lines 219-250): pattern 1 first; on a match
the amount is parsed with commas removed, and the percent is only assigned
if the amount parse did not raise; otherwise pattern 2 is tried. -/
def v2LineMatch (l : Str) : Option (Char × Str × Option ℚ × Option ℚ) :=
  match v2Pat1Search l with
  | some (c, d, pctStr, amtStr) =>
    let amt := pyFloatDigits (amtStr.filter (fun ch => ch ≠ ','))
    let pct := if amt.isSome then pctStr.map ratOfDecimal else none
    some (c, d, amt, pct)
  | none =>
    match v2Pat2Search l with
    | some (c, d, pctStr) => some (c, d, none, pctStr.map ratOfDecimal)
    | none => none

/-- Descriptions discarded by the v2 parser (line 263). -/
def bannedDescs : List Str := ["original el".data, "supplemental el".data]

/-- Per-line loop of v2 `parse_milestones` (lines 214-277): strip the line,
match, deduplicate ordinals, filter short/banned descriptions, and build the
milestone record with `completed = ordinal_key in completed_ordinals`. -/
def v2ParseGo (S : List Str) (seen : List Str) : List Str → List V2Milestone
  | [] => []
  | line :: rest =>
    let l := pyStrip line
    if l = [] then v2ParseGo S seen rest
    else
      match v2LineMatch l with
      | none => v2ParseGo S seen rest
      | some (c, dRaw, amt, pct) =>
        let description := pyStrip dRaw
        let key := mkOrd c
        if key ∈ seen then v2ParseGo S seen rest
        else
          if description.length < 3 ∨ lowerStr description ∈ bannedDescs then
            v2ParseGo S (setAdd seen key) rest
          else
            { ordinal := key
              title := description.take 100
              description := description
              triggerText := description
              amountValue := amt
              amountCurrency :=
                match amt with
                | some a => if a ≠ 0 then some "USD".data else none
                | none => none
              isPercent := pct.isSome
              percentValue := pct
              sortOrder := (c.toLower.toNat : Int) - ('a'.toNat : Int) + 1
              completed := decide (key ∈ S) } :: v2ParseGo S (setAdd seen key) rest

/-- Embedding of v2 `parse_milestones` (update-billing-from-excel-v2.py
lines 207-279). -/
def v2ParseMilestones (text : Str) (S : List Str) : List V2Milestone :=
  v2ParseGo S [] (splitNl text)

/- ----------------------------------------------------------------------
   SmartMilestoneParser._parse_lsd_date (smart-parse-milestones.py lines
   149-182) and its two date shapes.
   ---------------------------------------------------------------------- -/

/-- Word character for the regex class `\w`: ASCII letters, digits,
underscore, plus CJK unified ideographs (word characters under Python's
Unicode semantics, present in the scripts' bilingual text). -/
def isWordChar (c : Char) : Bool :=
  isAsciiLetter c || isAsciiDigit c || c = '_' ||
    (0x4E00 ≤ c.toNat && c.toNat ≤ 0x9FFF)

/-- Head match of the English date pattern `(\d{1,2})\s+(\w{3,})\s+(\d{4})`:
day of one or two digits (a longer digit run cannot be followed by the
required whitespace), whitespace, a word of at least three characters
(maximal, since `\w` and `\s` are disjoint), whitespace, four digits.
Returns the (day, month word, year) captures. -/
def engDateHead (s : Str) : Option (Str × Str × Str) :=
  let ds := s.takeWhile isAsciiDigit
  if ds.length = 1 ∨ ds.length = 2 then
    let r1 := s.dropWhile isAsciiDigit
    if r1.takeWhile isPySpace = ([] : Str) then none
    else
      let r2 := r1.dropWhile isPySpace
      let w := r2.takeWhile isWordChar
      if w.length < 3 then none
      else
        let r3 := (r2.dropWhile isWordChar).dropWhile isPySpace
        if (r2.dropWhile isWordChar).takeWhile isPySpace = ([] : Str) then none
        else
          let ys := r3.take 4
          if ys.length = 4 ∧ ys.all isAsciiDigit then some (ds, w, ys) else none
  else none

/-- Leftmost search of the English date pattern. -/
def engDateSearch : Str → Option (Str × Str × Str)
  | [] => none
  | c :: rest =>
    match engDateHead (c :: rest) with
    | some g => some g
    | none => engDateSearch rest

/-- Head match of the Chinese date pattern
`(\d{4})\s*年\s*(\d{1,2})\s*月\s*(\d{1,2})\s*日`: returns the
(year, month, day) captures. -/
def chDateHead (s : Str) : Option (Str × Str × Str) :=
  let ys := s.take 4
  if ys.length = 4 ∧ ys.all isAsciiDigit then
    match (s.drop 4).dropWhile isPySpace with
    | '年' :: r2 =>
      let r2' := r2.dropWhile isPySpace
      let ms := r2'.takeWhile isAsciiDigit
      if ms.length = 1 ∨ ms.length = 2 then
        match (r2'.dropWhile isAsciiDigit).dropWhile isPySpace with
        | '月' :: r4 =>
          let r4' := r4.dropWhile isPySpace
          let ds := r4'.takeWhile isAsciiDigit
          if ds.length = 1 ∨ ds.length = 2 then
            match (r4'.dropWhile isAsciiDigit).dropWhile isPySpace with
            | '日' :: _ => some (ys, ms, ds)
            | _ => none
          else none
        | _ => none
      else none
    | _ => none
  else none

/-- Leftmost search of the Chinese date pattern. -/
def chDateSearch : Str → Option (Str × Str × Str)
  | [] => none
  | c :: rest =>
    match chDateHead (c :: rest) with
    | some g => some g
    | none => chDateSearch rest

/-- Month-name table of `_parse_english_date` (lines 169-174). -/
def monthMap (w : Str) : Option Nat :=
  if w = "jan".data ∨ w = "january".data then some 1
  else if w = "feb".data ∨ w = "february".data then some 2
  else if w = "mar".data ∨ w = "march".data then some 3
  else if w = "apr".data ∨ w = "april".data then some 4
  else if w = "may".data then some 5
  else if w = "jun".data ∨ w = "june".data then some 6
  else if w = "jul".data ∨ w = "july".data then some 7
  else if w = "aug".data ∨ w = "august".data then some 8
  else if w = "sep".data ∨ w = "september".data then some 9
  else if w = "oct".data ∨ w = "october".data then some 10
  else if w = "nov".data ∨ w = "november".data then some 11
  else if w = "dec".data ∨ w = "december".data then some 12
  else none

/-- Two-digit zero padding, Python `f"{n:02d}"` for `n ≥ 0`. -/
def pad2 (n : Nat) : Str :=
  if n < 10 then '0' :: Nat.toDigits 10 n else Nat.toDigits 10 n

/-- Embedding of `_parse_english_date` (lines 167-178): recognized month
words yield `f"{year}-{month:02d}-{int(day):02d}"` (the year capture is used
verbatim), others yield `None`. -/
def parseEnglishDate (g : Str × Str × Str) : Option Str :=
  match monthMap (lowerStr g.2.1) with
  | some m => some (g.2.2 ++ '-' :: (pad2 m ++ '-' :: pad2 (natOfDigits g.1)))
  | none => none

/-- Embedding of `_parse_chinese_date` (lines 180-182). -/
def parseChineseDate (g : Str × Str × Str) : Str :=
  g.1 ++ '-' :: (pad2 (natOfDigits g.2.1) ++ '-' :: pad2 (natOfDigits g.2.2))

/-- Embedding of `_parse_lsd_date` (lines 149-165): the English pattern is
searched first, and on a match its parser's result is returned immediately,
even when that result is `None` because the month word is unrecognized; the
Chinese pattern is only tried when the English pattern matches nowhere. -/
def parseLsdDate (s : Str) : Option Str :=
  match engDateSearch s with
  | some g => parseEnglishDate g
  | none =>
    match chDateSearch s with
    | some g => some (parseChineseDate g)
    | none => none

/- ----------------------------------------------------------------------
   extract_amount_from_description (fix-all-milestones.py lines 19-49).
   ---------------------------------------------------------------------- -/

/-- Comma removal of fix-all-milestones.py line 25:
`description.replace(',', '').replace('，', '')`. -/
def cleanDesc (s : Str) : Str := s.filter (fun c => !(c = ',' || c = '，'))

/-- Dash class `[-–—]` of fix-all pattern 1. -/
def isDash (c : Char) : Bool := c = '-' || c = '–' || c = '—'

/-- Head match of the amount capture `[\d]{4,}(?:\.\d{2})?`: a maximal digit
run of length at least four, optionally extended by a dot and exactly two
digits. -/
def amtNumHead (s : Str) : Option Str :=
  let ds := s.takeWhile isAsciiDigit
  if ds.length < 4 then none
  else
    match s.dropWhile isAsciiDigit with
    | '.' :: a :: b :: _ =>
      if isAsciiDigit a && isAsciiDigit b then some (ds ++ ['.', a, b]) else some ds
    | _ => some ds

/-- Head match of fix-all pattern 1 `[-–—]\s*([\d]{4,}(?:\.\d{2})?)`. -/
def fixPat1Head (s : Str) : Option Str :=
  match s with
  | c :: rest => if isDash c then amtNumHead (rest.dropWhile isPySpace) else none
  | [] => none

/-- Leftmost search of fix-all pattern 1. -/
def fixPat1Search : Str → Option Str
  | [] => none
  | c :: rest =>
    match fixPat1Head (c :: rest) with
    | some a => some a
    | none => fixPat1Search rest

/-- Alternation `(?:USD|美元|美金|CNY|RMB|人民币)` at the head of `s`. -/
def currencyHead (s : Str) : Bool :=
  strHeadMatch "USD".data s || strHeadMatch "美元".data s || strHeadMatch "美金".data s ||
    strHeadMatch "CNY".data s || strHeadMatch "RMB".data s || strHeadMatch "人民币".data s

/-- Head match of fix-all pattern 2
`([\d]{4,}(?:\.\d{2})?)\s*(?:USD|美元|美金|CNY|RMB|人民币)`: the optional
fraction is tried greedily first and dropped if no currency word follows
it. -/
def fixPat2Head (s : Str) : Option Str :=
  let ds := s.takeWhile isAsciiDigit
  if ds.length < 4 then none
  else
    match s.dropWhile isAsciiDigit with
    | '.' :: a :: b :: r =>
      if isAsciiDigit a && isAsciiDigit b then
        if currencyHead (r.dropWhile isPySpace) then some (ds ++ ['.', a, b])
        else if currencyHead (('.' :: a :: b :: r).dropWhile isPySpace) then some ds
        else none
      else if currencyHead (('.' :: a :: b :: r).dropWhile isPySpace) then some ds
      else none
    | r => if currencyHead (r.dropWhile isPySpace) then some ds else none

/-- Leftmost search of fix-all pattern 2. -/
def fixPat2Search : Str → Option Str
  | [] => none
  | c :: rest =>
    match fixPat2Head (c :: rest) with
    | some a => some a
    | none => fixPat2Search rest

/-- Python `re.findall(r'\b([\d]{5,})\b', text)`: all maximal digit runs of
length at least five whose neighbours (if any) are not word characters.
`prev` is the character preceding the current scan position.  The scan
advances one position at a time: a `findall` match can never start inside a
previous match, because every character of a match is a digit and therefore
a word character blocking the leading `\b`, so positionwise scanning agrees
with the engine's non-overlapping semantics. -/
def fixPat3Go (prev : Option Char) : Str → List Str
  | [] => []
  | c :: rest =>
    (if isAsciiDigit c && (match prev with | none => true | some p => !isWordChar p) then
      let run := c :: rest.takeWhile isAsciiDigit
      if 5 ≤ run.length &&
          (match rest.dropWhile isAsciiDigit with | [] => true | d :: _ => !isWordChar d) then
        [run]
      else []
    else []) ++ fixPat3Go (some c) rest

/-- Range guard of fix-all-milestones.py lines 32/39/46:
`1000 <= amount <= 10000000 and not (2020 <= amount <= 2030)`. -/
def amountOk (x : ℚ) : Bool :=
  decide ((1000 : ℚ) ≤ x ∧ x ≤ 10000000 ∧ ¬((2020 : ℚ) ≤ x ∧ x ≤ 2030))

/-- Loop over the pattern-3 matches (lines 43-47): the first match passing
the range guard is returned. -/
def fixPat3First : List Str → Option ℚ
  | [] => none
  | m :: rest =>
    let a := ratOfDecimal m
    if amountOk a then some a else fixPat3First rest

/-- Embedding of `extract_amount_from_description` (fix-all-milestones.py
lines 19-49): empty descriptions yield `None`; otherwise the three patterns
are tried in order on the comma-stripped text, each guarded by the
year-excluding range check, falling through to the next pattern when the
guard rejects. -/
def extractAmountFromDescription (desc : Str) : Option ℚ :=
  if desc = [] then none
  else
    let t := cleanDesc desc
    let stage3 := fixPat3First (fixPat3Go none t)
    let stage2 : Option ℚ :=
      match fixPat2Search t with
      | some mstr =>
        let a := ratOfDecimal mstr
        if amountOk a then some a else stage3
      | none => stage3
    match fixPat1Search t with
    | some mstr =>
      let a := ratOfDecimal mstr
      if amountOk a then some a else stage2
    | none => stage2

/- ----------------------------------------------------------------------
   update_database of parse-strikethrough-milestones.py (lines 151-228) and
   its textually identical copy in parse-html-strikethrough.py (lines
   134-211): the relational state and the completion UPDATE.
   ---------------------------------------------------------------------- -/

/-- Row of `billing_milestone` with the columns the strikethrough update
statement reads or writes; the columns it never touches are not modelled. -/
structure BMilestoneRow where
  feeId : Nat
  ordinal : Str
  completed : Bool
  completionDate : Option Nat
  completionSource : Option Str
deriving DecidableEq

/-- Relational state read and written by `update_database`:
`billing_project(project_id, project_name)`,
`billing_engagement(engagement_id, project_id)`,
`billing_fee_arrangement(fee_id, engagement_id)` and `billing_milestone`.
Timestamps are modelled as natural numbers. -/
structure StrikeDB where
  projects : List (Nat × Str)
  engagements : List (Nat × Nat)
  fees : List (Nat × Nat)
  milestones : List BMilestoneRow
deriving DecidableEq

/-- Fee ids selected by the subquery
`SELECT bfa.fee_id FROM billing_fee_arrangement bfa JOIN billing_engagement
be ON be.engagement_id = bfa.engagement_id WHERE be.project_id = %s`. -/
def feeIdsOfProject (db : StrikeDB) (pid : Nat) : List Nat :=
  (db.fees.filter (fun f => db.engagements.any (fun e => e.1 = f.2 && e.2 = pid))).map
    (fun f => f.1)

/-- WHERE clause of the completion UPDATE (lines 199-213): fee in the
project's fee set, matching ordinal, and `completed = FALSE`. -/
def strikeWhere (db : StrikeDB) (pid : Nat) (ov : Str) (r : BMilestoneRow) : Bool :=
  decide (r.feeId ∈ feeIdsOfProject db pid) && decide (r.ordinal = ov) && !r.completed

/-- The completion UPDATE itself: matched rows get `completed = TRUE`,
`completion_date = now` and `completion_source = 'excel_strikethrough'`;
returns the new state and `cursor.rowcount`. -/
def strikeUpdate (db : StrikeDB) (pid : Nat) (ov : Str) (now : Nat) : StrikeDB × Nat :=
  ({ db with
      milestones :=
        db.milestones.map (fun r =>
          if strikeWhere db pid ov r then
            { r with
                completed := true
                completionDate := some now
                completionSource := some "excel_strikethrough".data }
          else r) },
   (db.milestones.filter (strikeWhere db pid ov)).length)

/-- Project lookup `SELECT bp.project_id FROM billing_project bp WHERE
bp.project_name = %s LIMIT 1`. -/
def projectLookup (db : StrikeDB) (name : Str) : Option Nat :=
  (db.projects.find? (fun pr => decide (pr.2 = name))).map (fun pr => pr.1)

/-- Loop over one project's milestone identifiers (lines 195-221): each
identifier `m` is wrapped as `f'({m})'` and one UPDATE is run, accumulating
`total_updated`. -/
def strikeUpdateIds (pid : Nat) (now : Nat) : StrikeDB → List Str → StrikeDB × Nat
  | db, [] => (db, 0)
  | db, mid :: rest =>
    let r1 := strikeUpdate db pid ('(' :: (mid ++ [')'])) now
    let r2 := strikeUpdateIds pid now r1.1 rest
    (r2.1, r1.2 + r2.2)

/-- Per-project step of `update_database`: unmatched project names are
skipped. -/
def strikeUpdateProject (now : Nat) (db : StrikeDB) (name : Str) (ids : List Str) :
    StrikeDB × Nat :=
  match projectLookup db name with
  | none => (db, 0)
  | some pid => strikeUpdateIds pid now db ids

/-- Loop over the extracted projects. -/
def updateDatabaseGo (now : Nat) : StrikeDB → List (Str × List Str) → StrikeDB × Nat
  | db, [] => (db, 0)
  | db, (name, ids) :: rest =>
    let r1 := strikeUpdateProject now db name ids
    let r2 := updateDatabaseGo now r1.1 rest
    (r2.1, r1.2 + r2.2)

/-- Embedding of `update_database` (parse-strikethrough-milestones.py lines
151-228 and parse-html-strikethrough.py lines 134-211): the input maps
project names to lists of struck milestone identifiers; `now` models
`datetime.now()`.  The single `conn.commit()` at the end makes the returned
state the committed one; the result also carries `total_updated`. -/
def updateDatabase (db : StrikeDB) (input : List (Str × List Str)) (now : Nat) :
    StrikeDB × Nat :=
  if input = [] then (db, 0) else updateDatabaseGo now db input

/- ----------------------------------------------------------------------
   Milestone UPDATE of update-billing-kimi-fixed.py (lines 410-428), used
   to analyse completion monotonicity.
   ---------------------------------------------------------------------- -/

/-- Row of `billing_milestone` with the columns the kimi-fixed milestone
UPDATE touches. -/
structure KMilestoneRow where
  description : Str
  amountValue : Option ℚ
  amountCurrency : Option Str
  percentValue : Option ℚ
  isPercent : Bool
  completed : Bool
  completionSource : Option Str
  completionDate : Option Nat
  updatedAt : Nat
  sortOrder : Nat
  rawFragment : Str
deriving DecidableEq

/-- SET clause of the milestone UPDATE in update-billing-kimi-fixed.py
lines 410-428 applied to the matched row: `completed` is assigned the
freshly parsed flag unconditionally, while `completion_source` and
`completion_date` are only advanced when the new flag is true (the CASE
expressions read the old row values). -/
def kimiFixedMilestoneSet (r : KMilestoneRow) (desc : Str) (amount : Option ℚ)
    (currency : Option Str) (percent : Option ℚ) (mCompleted : Bool)
    (i : Nat) (now : Nat) : KMilestoneRow :=
  { description := desc
    amountValue := amount
    amountCurrency := currency
    percentValue := percent
    isPercent := percent.isSome
    completed := mCompleted
    completionSource :=
      if mCompleted then some "excel_strikethrough".data else r.completionSource
    completionDate :=
      if mCompleted && !r.completed then some now else r.completionDate
    updatedAt := now
    sortOrder := i
    rawFragment := desc.take 100 }

/- ----------------------------------------------------------------------
   DatabaseUpdater of smart-parse-milestones.py (lines 239-351): schema,
   transaction model and fault-injected execution.
   ---------------------------------------------------------------------- -/

/-- Milestone dataclass instance as consumed by the updater: the fields of
`Milestone` that `DatabaseUpdater._upsert_milestone` reads. -/
structure MArg where
  ordinal : Str
  title : Str
  description : Str
  amountUsd : Option ℚ
  percentage : Option ℚ
  completed : Bool
  rawText : Str
deriving DecidableEq

/-- Row of `billing_fee_arrangement` with the columns the smart updater
reads or writes. -/
structure FeeRow where
  feeId : Nat
  engagementId : Nat
  rawText : Str
  lsdDate : Option Str
  lsdRaw : Option Str
  bonusDescription : Option Str
  bonusUsd : Option ℚ
  bonusCny : Option ℚ
  parsedAt : Option Nat
deriving DecidableEq

/-- Row of `billing_milestone` with the columns the smart updater reads or
writes. -/
structure SMilestoneRow where
  milestoneId : Nat
  feeId : Nat
  ordinal : Str
  title : Str
  description : Str
  amountValue : Option ℚ
  amountCurrency : Option Str
  isPercent : Bool
  percentValue : Option ℚ
  completed : Bool
  completionSource : Option Str
  completionDate : Option Nat
  rawFragment : Str
  sortOrder : Int
  updatedAt : Option Nat
deriving DecidableEq

/-- Relational state read and written by `DatabaseUpdater.update`:
`billing_project_cm_no(cm_id, cm_no)`, `billing_engagement(engagement_id,
cm_id)`, fee arrangements and milestones. -/
structure SmartDB where
  cmNos : List (Nat × Str)
  engagements : List (Nat × Nat)
  fees : List FeeRow
  milestones : List SMilestoneRow
deriving DecidableEq

/-- Connection state: the committed database visible after the script ends,
and the in-transaction working state the cursor operates on.  `commit`
publishes the working state, `rollback` discards it. -/
structure Conn where
  committed : SmartDB
  working : SmartDB
deriving DecidableEq

/-- Updater statistics dictionary `{'created': 0, 'updated': 0, 'errors': 0}`. -/
structure Stats where
  created : Nat
  updated : Nat
  errors : Nat
deriving DecidableEq

/-- Fault schedule for `cursor.execute`/`conn.commit` calls: each call
consumes one entry; `true` makes the call raise (any psycopg2 error), and an
exhausted schedule never raises. -/
def execStep (faults : List Bool) : Except Unit (List Bool) :=
  match faults with
  | [] => Except.ok []
  | b :: rest => if b then Except.error () else Except.ok rest

/-- C/M lookup `SELECT cm_id FROM billing_project_cm_no WHERE cm_no = %s`. -/
def lookupCm (db : SmartDB) (cm : Str) : Option Nat :=
  (db.cmNos.find? (fun p => decide (p.2 = cm))).map (fun p => p.1)

/-- Engagement lookup `SELECT engagement_id FROM billing_engagement WHERE
cm_id = %s`. -/
def lookupEng (db : SmartDB) (cmId : Nat) : Option Nat :=
  (db.engagements.find? (fun p => decide (p.2 = cmId))).map (fun p => p.1)

/-- Fee lookup `SELECT fee_id FROM billing_fee_arrangement WHERE
engagement_id = %s`. -/
def lookupFee (db : SmartDB) (engId : Nat) : Option Nat :=
  (db.fees.find? (fun f => decide (f.engagementId = engId))).map (fun f => f.feeId)

/-- Fresh id for an INSERT ... RETURNING on the fee table. -/
def freshFeeId (db : SmartDB) : Nat :=
  db.fees.foldl (fun a f => max a f.feeId) 0 + 1

/-- Fresh id for an insert into the milestone table. -/
def freshMilestoneId (db : SmartDB) : Nat :=
  db.milestones.foldl (fun a m => max a m.milestoneId) 0 + 1

/-- UPDATE of `billing_fee_arrangement` (lines 285-290). -/
def feeUpdate (db : SmartDB) (feeId : Nat) (rawText : Str) (lsdDate lsdRaw : Option Str)
    (bonusDesc : Option Str) (bonusUsd bonusCny : Option ℚ) : SmartDB :=
  { db with
      fees :=
        db.fees.map (fun f =>
          if f.feeId = feeId then
            { f with
                rawText := rawText, lsdDate := lsdDate, lsdRaw := lsdRaw
                bonusDescription := bonusDesc, bonusUsd := bonusUsd, bonusCny := bonusCny }
          else f) }

/-- INSERT of `billing_fee_arrangement` (lines 292-300). -/
def feeInsert (db : SmartDB) (engId : Nat) (rawText : Str) (lsdDate lsdRaw : Option Str)
    (bonusDesc : Option Str) (bonusUsd bonusCny : Option ℚ) (now : Nat) : SmartDB :=
  { db with
      fees :=
        db.fees ++
          [{ feeId := freshFeeId db, engagementId := engId, rawText := rawText
             lsdDate := lsdDate, lsdRaw := lsdRaw, bonusDescription := bonusDesc
             bonusUsd := bonusUsd, bonusCny := bonusCny, parsedAt := some now }] }

/-- Milestone lookup `SELECT milestone_id, completed FROM billing_milestone
WHERE fee_id = %s AND ordinal = %s`. -/
def findMilestone (db : SmartDB) (feeId : Nat) (o : Str) : Option SMilestoneRow :=
  db.milestones.find? (fun m => decide (m.feeId = feeId) && decide (m.ordinal = o))

/-- Unconditional milestone UPDATE (lines 322-328). -/
def milUpdate (db : SmartDB) (mid : Nat) (m : MArg) (now : Nat) : SmartDB :=
  { db with
      milestones :=
        db.milestones.map (fun r =>
          if r.milestoneId = mid then
            { r with
                title := m.title, description := m.description
                amountValue := m.amountUsd, isPercent := m.percentage.isSome
                percentValue := m.percentage, updatedAt := some now }
          else r) }

/-- Conditional completion UPDATE (lines 331-336). -/
def milComplete (db : SmartDB) (mid : Nat) (now : Nat) : SmartDB :=
  { db with
      milestones :=
        db.milestones.map (fun r =>
          if r.milestoneId = mid then
            { r with
                completed := true
                completionSource := some "excel_strikethrough".data
                completionDate := some now }
          else r) }

/-- Sort order computation of line 340:
`ord(m.ordinal[1].lower()) - ord('a') + 1 if m.ordinal[1].isalpha() else
int(m.ordinal[1])`.  `none` models the IndexError/ValueError raised when the
ordinal has no second character or it is neither a letter nor a digit. -/
def sortOrderOf (o : Str) : Option Int :=
  match o.get? 1 with
  | none => none
  | some ch =>
    if isAsciiLetter ch then some ((ch.toLower.toNat : Int) - ('a'.toNat : Int) + 1)
    else if isAsciiDigit ch then some (digitVal ch : Int)
    else none

/-- Milestone INSERT (lines 341-350).  The currency is `'USD' if
m.amount_usd else None`, where a zero amount is falsy. -/
def milInsert (db : SmartDB) (feeId : Nat) (m : MArg) (so : Int) (now : Nat) : SmartDB :=
  { db with
      milestones :=
        db.milestones ++
          [{ milestoneId := freshMilestoneId db, feeId := feeId, ordinal := m.ordinal
             title := m.title, description := m.description, amountValue := m.amountUsd
             amountCurrency :=
               match m.amountUsd with
               | some a => if a ≠ 0 then some "USD".data else none
               | none => none
             isPercent := m.percentage.isSome, percentValue := m.percentage
             completed := m.completed
             completionSource := if m.completed then some "excel_strikethrough".data else none
             completionDate := if m.completed then some now else none
             rawFragment := m.rawText
             sortOrder := so, updatedAt := none }] }

/-- Embedding of `DatabaseUpdater._upsert_milestone` (lines 313-351) under a
fault schedule: a SELECT, then either the UPDATE (plus the conditional
completion UPDATE) or the sort-order computation and the INSERT.  Statistics
are advanced as in the source.  An exception carries the statistics live at
the moment of the raise: the stats dictionary is a plain Python dict that is
never rolled back, and inside one upsert every raise point precedes that
upsert's own increment (lines 331-337 and 340-351 increment only after the
execute returns). -/
def upsertMilestoneRun (now : Nat) (feeId : Nat) (m : MArg) (db : SmartDB) (st : Stats)
    (faults : List Bool) : Except Stats (SmartDB × Stats × List Bool) :=
  match execStep faults with
  | Except.error _ => Except.error st
  | Except.ok f1 =>
    match findMilestone db feeId m.ordinal with
    | some existing =>
      match execStep f1 with
      | Except.error _ => Except.error st
      | Except.ok f2 =>
        if m.completed && !existing.completed then
          match execStep f2 with
          | Except.error _ => Except.error st
          | Except.ok f3 =>
            Except.ok (milComplete (milUpdate db existing.milestoneId m now)
                existing.milestoneId now,
              { st with updated := st.updated + 1 }, f3)
        else Except.ok (milUpdate db existing.milestoneId m now, st, f2)
    | none =>
      match sortOrderOf m.ordinal with
      | none => Except.error st
      | some so =>
        match execStep f1 with
        | Except.error _ => Except.error st
        | Except.ok f2 =>
          Except.ok (milInsert db feeId m so now, { st with created := st.created + 1 }, f2)

/-- Loop over the parsed milestones (line 303-304).  A raise in one upsert
keeps the increments the earlier upserts already made: its payload is the
statistics accumulated so far. -/
def upsertLoopRun (now : Nat) (feeId : Nat) :
    List MArg → SmartDB → Stats → List Bool → Except Stats (SmartDB × Stats × List Bool)
  | [], db, st, fs => Except.ok (db, st, fs)
  | m :: ms, db, st, fs =>
    match upsertMilestoneRun now feeId m db st fs with
    | Except.error stR => Except.error stR
    | Except.ok r => upsertLoopRun now feeId ms r.1 r.2.1 r.2.2

/-- Fee-arrangement step (lines 276-300): update the existing fee row or
insert a fresh one, returning the fee id the milestones attach to. -/
def feeStepRun (engId : Nat) (rawText : Str) (lsdDate lsdRaw : Option Str)
    (bonusDesc : Option Str) (bonusUsd bonusCny : Option ℚ) (now : Nat) (db : SmartDB)
    (faults : List Bool) : Except Unit (SmartDB × Nat × List Bool) :=
  match lookupFee db engId with
  | some feeId =>
    match execStep faults with
    | Except.error e => Except.error e
    | Except.ok f4 =>
      Except.ok (feeUpdate db feeId rawText lsdDate lsdRaw bonusDesc bonusUsd bonusCny,
        feeId, f4)
  | none =>
    match execStep faults with
    | Except.error e => Except.error e
    | Except.ok f4 =>
      Except.ok (feeInsert db engId rawText lsdDate lsdRaw bonusDesc bonusUsd bonusCny now,
        freshFeeId db, f4)

/-- Body of the `try` block of `DatabaseUpdater.update` (lines 253-306),
acting on the working copy of the connection.  The returned flag records
whether `conn.commit()` was reached and succeeded; the early returns for a
missing C/M or engagement skip the commit.  The commit call consumes a
fault slot like the execute calls.  An exception carries the statistics
live at the raise (the stats dict is not rolled back): before the milestone
loop they equal the entry statistics, and a commit fault keeps every
increment the loop made. -/
def smartUpdateBody (cmNo : Str) (ms : List MArg) (lsdDate lsdRaw : Option Str)
    (bonusUsd bonusCny : Option ℚ) (bonusDesc : Option Str) (rawText : Str) (now : Nat)
    (db : SmartDB) (st : Stats) (faults : List Bool) :
    Except Stats (SmartDB × Stats × Bool × List Bool) :=
  match execStep faults with
  | Except.error _ => Except.error st
  | Except.ok f1 =>
    match lookupCm db cmNo with
    | none => Except.ok (db, st, false, f1)
    | some cmId =>
      match execStep f1 with
      | Except.error _ => Except.error st
      | Except.ok f2 =>
        match lookupEng db cmId with
        | none => Except.ok (db, st, false, f2)
        | some engId =>
          match execStep f2 with
          | Except.error _ => Except.error st
          | Except.ok f3 =>
            match feeStepRun engId rawText lsdDate lsdRaw bonusDesc bonusUsd bonusCny now
                db f3 with
            | Except.error _ => Except.error st
            | Except.ok af =>
              match upsertLoopRun now af.2.1 ms af.1 st af.2.2 with
              | Except.error stR => Except.error stR
              | Except.ok r =>
                match execStep r.2.2 with
                | Except.error _ => Except.error r.2.1
                | Except.ok f6 => Except.ok (r.1, r.2.1, true, f6)

/-- The milestone upsert without the connection layer: the database and
statistics effect of `_upsert_milestone`; `none` marks the
IndexError/ValueError raised by the sort-order computation on a malformed
ordinal. -/
def upsertMilestonePure (now feeId : Nat) (m : MArg) (db : SmartDB) (st : Stats) :
    Option (SmartDB × Stats) :=
  match findMilestone db feeId m.ordinal with
  | some existing =>
    if m.completed && !existing.completed then
      some (milComplete (milUpdate db existing.milestoneId m now) existing.milestoneId now,
        { st with updated := st.updated + 1 })
    else some (milUpdate db existing.milestoneId m now, st)
  | none =>
    match sortOrderOf m.ordinal with
    | none => none
    | some so => some (milInsert db feeId m so now, { st with created := st.created + 1 })

/-- The milestone loop without the connection layer. -/
def upsertLoopPure (now feeId : Nat) : List MArg → SmartDB → Stats → Option (SmartDB × Stats)
  | [], db, st => some (db, st)
  | m :: ms, db, st =>
    match upsertMilestonePure now feeId m db st with
    | none => none
    | some r => upsertLoopPure now feeId ms r.1 r.2

/-- The fee-arrangement step without the connection layer. -/
def feeStepPure (engId : Nat) (rawText : Str) (lsdDate lsdRaw : Option Str)
    (bonusDesc : Option Str) (bonusUsd bonusCny : Option ℚ) (now : Nat) (db : SmartDB) :
    SmartDB × Nat :=
  match lookupFee db engId with
  | some feeId =>
    (feeUpdate db feeId rawText lsdDate lsdRaw bonusDesc bonusUsd bonusCny, feeId)
  | none =>
    (feeInsert db engId rawText lsdDate lsdRaw bonusDesc bonusUsd bonusCny now,
     freshFeeId db)

/-- The whole row update without the connection layer: all of the row's
writes (the fee insert/update plus every milestone upsert), with `none`
when the body raises independently of the connection; the flag records
whether the commit point is reached (false on the two early returns). -/
def smartUpdatePure (cmNo : Str) (ms : List MArg) (lsdDate lsdRaw : Option Str)
    (bonusUsd bonusCny : Option ℚ) (bonusDesc : Option Str) (rawText : Str) (now : Nat)
    (db : SmartDB) (st : Stats) : Option (SmartDB × Stats × Bool) :=
  match lookupCm db cmNo with
  | none => some (db, st, false)
  | some cmId =>
    match lookupEng db cmId with
    | none => some (db, st, false)
    | some engId =>
      let af := feeStepPure engId rawText lsdDate lsdRaw bonusDesc bonusUsd bonusCny now db
      match upsertLoopPure now af.2 ms af.1 st with
      | none => none
      | some r => some (r.1, r.2, true)

/-- Embedding of `DatabaseUpdater.update` (lines 249-311): the try body runs
on the working state; on success with commit the working state is published
to the committed state; the except branch rolls the working state back to
the committed one while the statistics dictionary, which the rollback
cannot touch, keeps the counters as they stood at the raise and gains the
error increment. -/
def smartUpdate (cmNo : Str) (ms : List MArg) (lsdDate lsdRaw : Option Str)
    (bonusUsd bonusCny : Option ℚ) (bonusDesc : Option Str) (rawText : Str) (now : Nat)
    (conn : Conn) (st : Stats) (faults : List Bool) : Conn × Stats :=
  match smartUpdateBody cmNo ms lsdDate lsdRaw bonusUsd bonusCny bonusDesc rawText now
      conn.working st faults with
  | Except.ok (db', st', didCommit, _) =>
    if didCommit then ({ committed := db', working := db' }, st')
    else ({ conn with working := db' }, st')
  | Except.error stR =>
    ({ conn with working := conn.committed }, { stR with errors := stR.errors + 1 })

/- ----------------------------------------------------------------------
   Row-selection loop of main (smart-parse-milestones.py lines 425-449).
   ---------------------------------------------------------------------- -/

/-- Worksheet as read through openpyxl with `data_only=True`: a maximal row
number and a cell function returning the cell value (text cells as strings,
`none` for empty cells; the project/fee columns of this workbook hold
text). -/
structure Sheet where
  maxRow : Nat
  cell : Nat → Nat → Option Str

/-- Row item appended by the collection loop (lines 438-444). -/
structure RowItem where
  row : Nat
  project : Str
  cmNo : Str
  text : Str
  struckSet : List Str
deriving DecidableEq

/-- Python `str(value or "")` for an optional string value. -/
def pyOrEmpty (v : Option Str) : Str :=
  match v with
  | some s => s
  | none => []

/-- The `--project` filter test of line 431:
`args.project and args.project.lower() not in str(project).lower()` (an
empty filter string is falsy and disables the filter). -/
def projFilterSkips (projFilter : Option Str) (p : Str) : Bool :=
  match projFilter with
  | some f => decide (f ≠ []) && !strContains (lowerStr p) (lowerStr f)
  | none => false

/-- Body of the row-collection loop of `main` (lines 426-444) for one row
number: a row is kept when its column-3 project cell is truthy, it passes
the `--project` filter, and its column-9 fee text is non-empty with length
greater than 10. -/
def selectRow (sheet : Sheet) (projFilter : Option Str) (strike : List (Nat × List Str))
    (r : Nat) : Option RowItem :=
  match sheet.cell r 3 with
  | none => none
  | some p =>
    if p = [] then none
    else if projFilterSkips projFilter p then none
    else
      let fee := pyOrEmpty (sheet.cell r 9)
      if fee ≠ [] ∧ 10 < fee.length then
        some { row := r, project := p, cmNo := pyStrip (pyOrEmpty (sheet.cell r 5))
               text := fee, struckSet := rowStruck strike r }
      else none

/-- Row-collection loop of `main`: rows 5 to `max_row` in order. -/
def collectRows (sheet : Sheet) (projFilter : Option Str) (strike : List (Nat × List Str)) :
    List RowItem :=
  (List.range' 5 (sheet.maxRow + 1 - 5)).filterMap (selectRow sheet projFilter strike)

/-- Python slice `rows[:n]` for an `int` n (a negative n counts from the
end). -/
def pySliceTo (l : List RowItem) (n : Int) : List RowItem :=
  if 0 ≤ n then l.take n.toNat else l.take (l.length - (-n).toNat)

/-- Truthiness-guarded truncation `if args.limit: rows = rows[:args.limit]`
(lines 448-449): an absent or zero `--limit` leaves the list untruncated. -/
def applyLimit (l : List RowItem) (limit : Option Int) : List RowItem :=
  match limit with
  | none => l
  | some n => if n ≠ 0 then pySliceTo l n else l

/-- Rows processed by `main`: the collection loop followed by the limit
truncation. -/
def mainRows (sheet : Sheet) (projFilter : Option Str) (strike : List (Nat × List Str))
    (limit : Option Int) : List RowItem :=
  applyLimit (collectRows sheet projFilter strike) limit

/-- Concrete two-row worksheet used to instantiate the row-selection
properties: row 5 qualifies (non-empty project, 12-character fee text),
row 6 has a project but no fee text. -/
def sampleSheet : Sheet :=
  { maxRow := 6
    cell := fun r c =>
      if r = 5 ∧ c = 3 then some "alpha".data
      else if r = 5 ∧ c = 9 then some "abcdefghijkl".data
      else if r = 6 ∧ c = 3 then some "beta".data
      else none }

/-- Concrete milestone row used to instantiate the updater properties. -/
def sampleSRow : SMilestoneRow :=
  { milestoneId := 1, feeId := 1, ordinal := "(a)".data, title := "t".data,
    description := "d".data, amountValue := none, amountCurrency := none,
    isPercent := false, percentValue := none, completed := true,
    completionSource := some "excel_strikethrough".data, completionDate := some 1,
    rawFragment := "rf".data, sortOrder := 1, updatedAt := none }

/-- Concrete smart-updater database with one C/M, one engagement, no fee
arrangement and one completed milestone. -/
def sampleSmartDB : SmartDB :=
  { cmNos := [(1, "12345-001".data)], engagements := [(1, 1)], fees := [],
    milestones := [sampleSRow] }

/-- Concrete parsed-milestone argument whose completed flag is false. -/
def sampleMArg : MArg :=
  { ordinal := "(a)".data, title := "t2".data, description := "d2".data,
    amountUsd := none, percentage := none, completed := false, rawText := "raw".data }

/-- Fresh statistics dictionary. -/
def sampleStats : Stats := { created := 0, updated := 0, errors := 0 }

/-- Post-state predicate for the strikethrough UPDATE: every milestone of
the project with the given ordinal is completed. -/
def strikeDone (db : StrikeDB) (pid : Nat) (ov : Str) : Prop :=
  ∀ r ∈ db.milestones, r.feeId ∈ feeIdsOfProject db pid → r.ordinal = ov →
    r.completed = true

/-- The non-milestone tables agree between two states (the strikethrough
scripts never write them). -/
def sameTables (a b : StrikeDB) : Prop :=
  a.projects = b.projects ∧ a.engagements = b.engagements ∧ a.fees = b.fees

/-- No milestone row ever goes from completed back to not completed, and the
row set is stable (the strikethrough scripts only rewrite rows in place). -/
def completionMonotone (old new : List BMilestoneRow) : Prop :=
  new.length = old.length ∧
  ∀ (i : Nat) (r r' : BMilestoneRow), old.get? i = some r → new.get? i = some r' →
    r.completed = true → r'.completed = true

/-- No milestone row that persists at its position ever goes from completed
back to not completed (smart-updater table). -/
def sCompletionMonotone (old new : List SMilestoneRow) : Prop :=
  ∀ (i : Nat) (r r' : SMilestoneRow), old.get? i = some r → new.get? i = some r' →
    r.completed = true → r'.completed = true

/- ----------------------------------------------------------------------
   Helper lemmas.
   ---------------------------------------------------------------------- -/

theorem ordMatchHead_cons_ne {a : Char} (t : Str) (h : a ≠ '(') :
    ordMatchHead (a :: t) = none := by
  match t with
  | [] => rfl
  | [_] => rfl
  | c :: b :: t' => simp [ordMatchHead, h]

theorem ordMatchHead_snd_rp (a : Char) (t : Str) : ordMatchHead (a :: ')' :: t) = none := by
  match t with
  | [] => rfl
  | b :: t' => simp [ordMatchHead, show ¬ isOrdChar ')' = true by decide]

theorem ordOccur_cons (i : Nat) (c0 : Char) (rest : Str) :
    ordOccur i (c0 :: rest) =
      (match ordMatchHead (c0 :: rest) with
       | some c => [(i, c)]
       | none => []) ++ ordOccur (i + 1) rest := rfl

theorem ordScan_eq_ordOccur (i : Nat) (s : Str) : ordScan i s = ordOccur i s := by
  induction i, s using ordScan.induct with
  | case1 i c rest h ih =>
    have h3 : i + 1 + 1 + 1 = i + 3 := by omega
    have hR : ordOccur i ('(' :: c :: ')' :: rest) = (i, c) :: ordOccur (i + 3) rest := by
      rw [ordOccur_cons, show ordMatchHead ('(' :: c :: ')' :: rest) = some c by
            simp [ordMatchHead, h],
          ordOccur_cons, ordMatchHead_snd_rp,
          ordOccur_cons, ordMatchHead_cons_ne _ (by decide : ')' ≠ '('), h3]
      rfl
    rw [ordScan.eq_1, if_pos h, ih, hR]
  | case2 i c rest h ih =>
    have hR : ordOccur i ('(' :: c :: ')' :: rest) = ordOccur (i + 1) (c :: ')' :: rest) := by
      rw [ordOccur_cons, show ordMatchHead ('(' :: c :: ')' :: rest) = none by
            simp [ordMatchHead, h]]
      rfl
    rw [ordScan.eq_1, if_neg h, ih, hR]
  | case3 i c rest hshape ih =>
    have hM : ordMatchHead (c :: rest) = none := by
      rcases rest with - | ⟨x, rest2⟩
      · rfl
      rcases rest2 with - | ⟨y, t⟩
      · rfl
      by_cases hc : c = '('
      · by_cases hy : y = ')'
        · subst hc; subst hy; exact (hshape x t rfl rfl).elim
        · simp [ordMatchHead, hy]
      · simp [ordMatchHead, hc]
    rw [ordScan.eq_2 _ _ _ hshape, ih, ordOccur_cons, hM]
    rfl
  | case4 i => rw [ordScan.eq_3]; rfl

theorem smartSegs_length (text : Str) (struck : List Str) (ms : List (Nat × Char)) :
    (smartSegs text struck ms).length = ms.length := by
  induction ms with
  | nil => rfl
  | cons pc rest ih =>
    cases pc
    simp [smartSegs, ih]

theorem smartSegs_get? (text : Str) (struck : List Str) :
    ∀ (ms : List (Nat × Char)) (i : Nat),
      (smartSegs text struck ms).get? i =
        (ms.get? i).map (fun pc =>
          { ordinal := mkOrd pc.2
            completed := decide (mkOrd pc.2 ∈ struck)
            rawText := pyStrip (pySlice text pc.1
              (match ms.get? (i + 1) with
               | some qd => qd.1
               | none => text.length)) })
  | [], i => by simp [smartSegs]
  | (p, c) :: rest, 0 => by
    cases rest with
    | nil => simp [smartSegs]
    | cons qd rest' =>
      cases qd
      simp [smartSegs]
  | (p, c) :: rest, i + 1 => by
    simpa [smartSegs] using smartSegs_get? text struck rest i

/-- C2 (ordinal segmentation): `SmartMilestoneParser.parse` returns exactly
one milestone per occurrence of the ordinal pattern `\(([a-z0-9])\)` in the
text, in order of appearance; the i-th milestone's ordinal is the lowercased
marker, and its raw text is the stripped slice of the text from that match's
start to the next match's start (or the end of the text); with no ordinal
occurrence the list is empty. -/
theorem claimC2 (text : Str) (struck : List Str) :
    (smartParse text struck).length = (ordOccur 0 text).length ∧
    (ordOccur 0 text = [] → smartParse text struck = []) ∧
    (∀ (i : Nat) (pc : Nat × Char), (ordOccur 0 text).get? i = some pc →
      (smartParse text struck).get? i = some
        { ordinal := mkOrd pc.2
          completed := decide (mkOrd pc.2 ∈ struck)
          rawText := pyStrip (pySlice text pc.1
            (match (ordOccur 0 text).get? (i + 1) with
             | some qd => qd.1
             | none => text.length)) }) := by
  refine ⟨?_, ?_, ?_⟩
  · rw [smartParse, ordScan_eq_ordOccur]
    exact smartSegs_length text struck _
  · intro h
    rw [smartParse, ordScan_eq_ordOccur, h]
    rfl
  · intro i pc h
    rw [smartParse, ordScan_eq_ordOccur, smartSegs_get?, h]
    rfl

/-- Witness for C2 at a concrete text with two ordinals. -/
theorem claimC2_witness :
    ((ordOccur 0 "(a) fee one (b) fee two".data).get? 0 = some (0, 'a')) ∧
    ((smartParse "(a) fee one (b) fee two".data ["(b)".data]).get? 0 = some
      { ordinal := "(a)".data, completed := false, rawText := "(a) fee one".data }) := by
  constructor
  · decide
  · have h := (claimC2 "(a) fee one (b) fee two".data ["(b)".data]).2.2 0 (0, 'a') (by decide)
    rw [h]
    decide

theorem smartSegs_completed (text : Str) (struck : List Str) (ms : List (Nat × Char)) :
    ∀ m ∈ smartSegs text struck ms, m.completed = decide (m.ordinal ∈ struck) := by
  induction ms with
  | nil => intro m h; simp [smartSegs] at h
  | cons pc rest ih =>
    rcases pc with ⟨p, c⟩
    intro m h
    simp only [smartSegs] at h
    rcases List.mem_cons.mp h with h1 | h2
    · subst h1; rfl
    · exact ih m h2

theorem dictGet_set_self (d : List (Nat × List Str)) (k : Nat) (v : List Str) :
    dictGet (dictSet d k v) k = some v := by
  induction d with
  | nil => simp [dictSet, dictGet]
  | cons p rest ih =>
    rcases p with ⟨k', v'⟩
    by_cases h : k' = k <;> simp [dictSet, dictGet, h, ih]

theorem dictGet_set_ne (d : List (Nat × List Str)) (k : Nat) (v : List Str) (r : Nat)
    (h : k ≠ r) : dictGet (dictSet d k v) r = dictGet d r := by
  induction d with
  | nil => simp [dictSet, dictGet, h]
  | cons p rest ih =>
    rcases p with ⟨k', v'⟩
    by_cases h' : k' = k
    · subst h'
      simp [dictSet, dictGet, h]
    · by_cases h'' : k' = r <;> simp [dictSet, dictGet, h', h'', ih, Ne.symm h]

theorem cellsFold_get_ne (ss : List SharedString) (rn : Nat) (r : Nat) (h : rn ≠ r) :
    ∀ (cells : List XCell) (d : List (Nat × List Str)),
      dictGet (cells.foldl (cellFoldStep ss rn) d) r = dictGet d r := by
  intro cells
  induction cells with
  | nil => intro d; rfl
  | cons c rest ih =>
    intro d
    rw [List.foldl_cons, ih]
    rcases hc : cellStruckOrdinals ss c with - | os
    · simp [cellFoldStep, hc]
    · simp [cellFoldStep, hc, dictGet_set_ne _ _ _ _ h]

theorem rowsFold_get_ne (ss : List SharedString) (r : Nat) :
    ∀ (rows : List XRow) (d : List (Nat × List Str)),
      (∀ x ∈ rows, x.rowNum ≠ r) →
      dictGet (rows.foldl (rowFold ss) d) r = dictGet d r := by
  intro rows
  induction rows with
  | nil => intro d _; rfl
  | cons row rest ih =>
    intro d h
    rw [List.foldl_cons, ih _ (fun x hx => h x (List.mem_cons_of_mem _ hx)), rowFold,
      cellsFold_get_ne ss row.rowNum r (h row (List.mem_cons_self _ _))]

theorem cellsFold_none (ss : List SharedString) (rn : Nat) :
    ∀ (cells : List XCell) (d : List (Nat × List Str)),
      (∀ c' ∈ cells, cellStruckOrdinals ss c' = none) →
      cells.foldl (cellFoldStep ss rn) d = d := by
  intro cells
  induction cells with
  | nil => intro d _; rfl
  | cons c rest ih =>
    intro d h
    rw [List.foldl_cons,
      show cellFoldStep ss rn d c = d by
        simp [cellFoldStep, h c (List.mem_cons_self _ _)],
      ih _ (fun c' hc' => h c' (List.mem_cons_of_mem _ hc'))]

theorem cellStruckOrdinals_eval (ss : List SharedString) (c : XCell) (rtl vt : Str)
    (idx : Nat) (si : SharedString) (h1 : c.ref = 'I' :: rtl) (h2 : c.typ = some ['s'])
    (h3 : c.v = some vt) (h4 : pyParseNat vt = some idx) (h5 : ss.get? idx = some si) :
    cellStruckOrdinals ss c =
      (if siHasStrike si then
        (if siStruckOrdinals si = [] then none else some (siStruckOrdinals si))
       else none) := by
  rcases c with ⟨ref, typ, v⟩
  simp only at h1 h2 h3
  subst h1; subst h2; subst h3
  rw [List.get?_eq_getElem?] at h5
  simp [cellStruckOrdinals, h4, h5]

theorem siStruckOrdinals_of_not_strike (si : SharedString) (h : siHasStrike si = false) :
    siStruckOrdinals si = [] := by
  rcases si with ⟨parts⟩
  rw [siHasStrike, List.any_eq_false] at h
  rw [siStruckOrdinals]
  simp only at h ⊢
  induction parts with
  | nil => rfl
  | cons p rest ih =>
    rw [List.foldl_cons, if_neg ?_]
    · exact ih (fun r hr => h r (List.mem_cons_of_mem _ hr))
    · have := h p (List.mem_cons_self _ _)
      simp [this]

/-- C1 (strikethrough to completion, both halves): every milestone returned
by `SmartMilestoneParser.parse` is completed exactly when its ordinal is in
the given strikethrough set; and `extract_strikethrough` maps a worksheet
row number to precisely the set of ordinal markers occurring inside the
struck rich-text runs of that row's column-I shared string (rows whose
struck runs carry no marker are simply absent, which `main` reads back as
the empty set). -/
theorem claimC1 :
    (∀ (text : Str) (struck : List Str), ∀ m ∈ smartParse text struck,
       m.completed = decide (m.ordinal ∈ struck)) ∧
    (∀ (ss : List SharedString) (pre post : List XRow) (row : XRow)
       (pre2 post2 : List XCell) (c : XCell) (rtl vt : Str) (idx : Nat)
       (si : SharedString),
       row.cells = pre2 ++ c :: post2 →
       (∀ c' ∈ pre2, cellStruckOrdinals ss c' = none) →
       (∀ c' ∈ post2, cellStruckOrdinals ss c' = none) →
       c.ref = 'I' :: rtl → c.typ = some ['s'] → c.v = some vt →
       pyParseNat vt = some idx → ss.get? idx = some si →
       (∀ x ∈ pre, x.rowNum ≠ row.rowNum) →
       (∀ x ∈ post, x.rowNum ≠ row.rowNum) →
       ∀ o : Str,
         o ∈ rowStruck (extractStrikethrough ss (pre ++ row :: post)) row.rowNum ↔
         o ∈ siStruckOrdinals si) := by
  constructor
  · intro text struck m h
    exact smartSegs_completed text struck _ m h
  · intro ss pre post row pre2 post2 c rtl vt idx si hcells hpre2 hpost2 h1 h2 h3 h4 h5
      hpre hpost o
    have hcell := cellStruckOrdinals_eval ss c rtl vt idx si h1 h2 h3 h4 h5
    have hfold :
        dictGet (extractStrikethrough ss (pre ++ row :: post)) row.rowNum =
          (if siHasStrike si then
            (if siStruckOrdinals si = [] then none else some (siStruckOrdinals si))
           else none) := by
      rw [extractStrikethrough, List.foldl_append, List.foldl_cons,
        rowsFold_get_ne ss row.rowNum post _ hpost]
      rw [show rowFold ss (pre.foldl (rowFold ss) []) row =
            cellFoldStep ss row.rowNum (pre.foldl (rowFold ss) []) c by
          rw [rowFold, hcells, List.foldl_append, cellsFold_none ss row.rowNum pre2 _ hpre2,
            List.foldl_cons, cellsFold_none ss row.rowNum post2 _ hpost2]]
      rw [cellFoldStep, hcell]
      by_cases hstrike : siHasStrike si
      · by_cases hos : siStruckOrdinals si = []
        · simp only [hstrike, if_true, hos, if_pos]
          rw [rowsFold_get_ne ss row.rowNum pre _ hpre]
          rfl
        · simp only [hstrike, if_true, if_neg hos]
          exact dictGet_set_self _ _ _
      · simp only [Bool.not_eq_true] at hstrike
        simp only [hstrike, Bool.false_eq_true, if_false]
        rw [rowsFold_get_ne ss row.rowNum pre _ hpre]
        rfl
    rw [rowStruck, hfold]
    by_cases hstrike : siHasStrike si
    · by_cases hos : siStruckOrdinals si = []
      · simp [hstrike, hos]
      · simp [hstrike, hos]
    · simp only [Bool.not_eq_true] at hstrike
      rw [siStruckOrdinals_of_not_strike si hstrike]
      simp [hstrike]

/-- Witness for C1 at a one-row workbook whose column-I shared string has a
struck run containing the marker `(a)`. -/
theorem claimC1_witness :
    (({ ordinal := "(a)".data, completed := true, rawText := "(a) x".data } : Milestone) ∈
        smartParse "(a) x".data ["(a)".data] ∧
      ({ ordinal := "(a)".data, completed := true, rawText := "(a) x".data } :
          Milestone).completed =
        decide (("(a)".data : Str) ∈ ["(a)".data])) ∧
    ("(a)".data ∈
        rowStruck
          (extractStrikethrough
            [{ parts := [{ text := "(a) done".data, struck := true },
                         { text := " (b) pending".data, struck := false }] }]
            [{ rowNum := 7,
               cells := [{ ref := "I7".data, typ := some ['s'], v := some "0".data }] }])
          7 ↔
      "(a)".data ∈
        siStruckOrdinals
          { parts := [{ text := "(a) done".data, struck := true },
                      { text := " (b) pending".data, struck := false }] }) := by
  constructor
  · exact ⟨by decide,
      claimC1.1 "(a) x".data ["(a)".data] _ (by decide)⟩
  · exact claimC1.2
      [{ parts := [{ text := "(a) done".data, struck := true },
                   { text := " (b) pending".data, struck := false }] }]
      [] [] { rowNum := 7,
              cells := [{ ref := "I7".data, typ := some ['s'], v := some "0".data }] }
      [] [] { ref := "I7".data, typ := some ['s'], v := some "0".data }
      "7".data "0".data 0 _
      rfl (by simp) (by simp) rfl rfl rfl (by decide) rfl (by simp) (by simp)
      "(a)".data

theorem v2ParseGo_completed (S : List Str) :
    ∀ (lines : List Str) (seen : List Str), ∀ m ∈ v2ParseGo S seen lines,
      m.completed = decide (m.ordinal ∈ S) := by
  intro lines
  induction lines with
  | nil => intro seen m h; simp [v2ParseGo] at h
  | cons line rest ih =>
    intro seen m h
    simp only [v2ParseGo] at h
    split at h
    · exact ih seen m h
    · split at h
      · exact ih seen m h
      · split at h
        · exact ih seen m h
        · split at h
          · exact ih _ m h
          · rcases List.mem_cons.mp h with h1 | h2
            · subst h1; rfl
            · exact ih _ m h2

/-- C3 amended (variant agreement on completion): for every fee-arrangement
text and struck-ordinal set, any milestone of the smart parser and any
milestone of the v2 parser with the same ordinal carry the same completed
flag (both equal membership of the ordinal in the struck set).  The two
parsers do not, however, produce the same set of ordinals (see the
counterexample). -/
theorem claimC3 (text : Str) (S : List Str) (m1 : Milestone) (m2 : V2Milestone)
    (h1 : m1 ∈ smartParse text S) (h2 : m2 ∈ v2ParseMilestones text S)
    (h : m1.ordinal = m2.ordinal) : m1.completed = m2.completed := by
  rw [smartSegs_completed text S _ m1 h1, v2ParseGo_completed S _ _ m2 h2, h]

/-- Witness for C3 at a text both parsers segment identically. -/
theorem claimC3_witness :
    (({ ordinal := "(a)".data, completed := true,
        rawText := "(a) first installment - 95,000".data } : Milestone) ∈
      smartParse "(a) first installment - 95,000".data ["(a)".data]) ∧
    (({ ordinal := "(a)".data, title := "first installment".data,
        description := "first installment".data,
        triggerText := "first installment".data, amountValue := some 95000,
        amountCurrency := some "USD".data, isPercent := false, percentValue := none,
        sortOrder := 1, completed := true } : V2Milestone) ∈
      v2ParseMilestones "(a) first installment - 95,000".data ["(a)".data]) ∧
    ({ ordinal := "(a)".data, completed := true,
       rawText := "(a) first installment - 95,000".data } : Milestone).completed =
      ({ ordinal := "(a)".data, title := "first installment".data,
         description := "first installment".data,
         triggerText := "first installment".data, amountValue := some 95000,
         amountCurrency := some "USD".data, isPercent := false, percentValue := none,
         sortOrder := 1, completed := true } : V2Milestone).completed :=
  ⟨by decide, by decide,
    claimC3 "(a) first installment - 95,000".data ["(a)".data] _ _
      (by decide) (by decide) rfl⟩

/-- Counterexample to C3 as stated: on the text `(1) first installment -
95,000` (digit ordinal) with no strikethrough, the smart parser produces
the ordinal `(1)` while the v2 parser, whose ordinal class is `[a-z]`
letters only, produces no milestone at all, so the two parsers do not
yield the same set of ordinals. -/
theorem claimC3_counterexample :
    ¬ (∀ o : Str,
        o ∈ (smartParse "(1) first installment - 95,000".data []).map
              (fun m => m.ordinal) ↔
        o ∈ (v2ParseMilestones "(1) first installment - 95,000".data []).map
              (fun m => m.ordinal)) := by
  intro h
  have h1 : ("(1)".data : Str) ∈
      (smartParse "(1) first installment - 95,000".data []).map (fun m => m.ordinal) := by
    decide
  have h2 := (h "(1)".data).mp h1
  rw [show v2ParseMilestones "(1) first installment - 95,000".data [] = [] by decide] at h2
  simp at h2

theorem fixPat3First_ok : ∀ (l : List Str) (x : ℚ), fixPat3First l = some x →
    amountOk x = true := by
  intro l
  induction l with
  | nil => intro x h; simp [fixPat3First] at h
  | cons m rest ih =>
    intro x h
    simp only [fixPat3First] at h
    split at h
    · rename_i hok
      cases h
      exact hok
    · exact ih x h

/-- C10 (amount-extraction range guard): whenever
`extract_amount_from_description` returns an amount, that amount lies in
[1000, 10000000] and is not in the calendar-year band [2020, 2030]; every
return site is guarded by the range check. -/
theorem claimC10 (desc : Str) (x : ℚ) (h : extractAmountFromDescription desc = some x) :
    (1000 : ℚ) ≤ x ∧ x ≤ 10000000 ∧ ¬((2020 : ℚ) ≤ x ∧ x ≤ 2030) := by
  have hx : amountOk x = true := by
    simp only [extractAmountFromDescription] at h
    split at h
    · exact absurd h (by simp)
    · split at h
      · split at h
        · rename_i hok
          cases h
          exact hok
        · split at h
          · split at h
            · rename_i hok
              cases h
              exact hok
            · exact fixPat3First_ok _ _ h
          · exact fixPat3First_ok _ _ h
      · split at h
        · split at h
          · rename_i hok
            cases h
            exact hok
          · exact fixPat3First_ok _ _ h
        · exact fixPat3First_ok _ _ h
  exact of_decide_eq_true hx

/-- Witness for C10 on a description carrying a dash amount. -/
theorem claimC10_witness :
    extractAmountFromDescription "- 95,000".data = some 95000 ∧
    ((1000 : ℚ) ≤ 95000 ∧ (95000 : ℚ) ≤ 10000000 ∧
      ¬((2020 : ℚ) ≤ 95000 ∧ (95000 : ℚ) ≤ 2030)) :=
  ⟨by decide, claimC10 "- 95,000".data 95000 (by decide)⟩

theorem engDateSearch_none (s : Str) (h : ∀ i, engDateHead (s.drop i) = none) :
    engDateSearch s = none := by
  induction s with
  | nil => rfl
  | cons c rest ih =>
    have h0 : engDateHead (c :: rest) = none := h 0
    simp only [engDateSearch, h0]
    exact ih (fun i => h (i + 1))

theorem engDateSearch_at (s : Str) (i : Nat) (g : Str × Str × Str)
    (hi : engDateHead (s.drop i) = some g)
    (hmin : ∀ j < i, engDateHead (s.drop j) = none) :
    engDateSearch s = some g := by
  induction s generalizing i with
  | nil =>
    rw [List.drop_nil] at hi
    rw [show engDateHead ([] : Str) = none from rfl] at hi
    cases hi
  | cons c rest ih =>
    cases i with
    | zero =>
      have h0 : engDateHead (c :: rest) = some g := hi
      simp only [engDateSearch, h0]
    | succ i' =>
      have h0 : engDateHead (c :: rest) = none := hmin 0 (Nat.succ_pos _)
      simp only [engDateSearch, h0]
      exact ih i' hi (fun j hj => hmin (j + 1) (Nat.succ_lt_succ hj))

theorem chDateSearch_none (s : Str) (h : ∀ i, chDateHead (s.drop i) = none) :
    chDateSearch s = none := by
  induction s with
  | nil => rfl
  | cons c rest ih =>
    have h0 : chDateHead (c :: rest) = none := h 0
    simp only [chDateSearch, h0]
    exact ih (fun i => h (i + 1))

theorem chDateSearch_at (s : Str) (i : Nat) (g : Str × Str × Str)
    (hi : chDateHead (s.drop i) = some g)
    (hmin : ∀ j < i, chDateHead (s.drop j) = none) :
    chDateSearch s = some g := by
  induction s generalizing i with
  | nil =>
    rw [List.drop_nil] at hi
    rw [show chDateHead ([] : Str) = none from rfl] at hi
    cases hi
  | cons c rest ih =>
    cases i with
    | zero =>
      have h0 : chDateHead (c :: rest) = some g := hi
      simp only [chDateSearch, h0]
    | succ i' =>
      have h0 : chDateHead (c :: rest) = none := hmin 0 (Nat.succ_pos _)
      simp only [chDateSearch, h0]
      exact ih i' hi (fun j hj => hmin (j + 1) (Nat.succ_lt_succ hj))

/-- C5 amended (LSD date parsing): the English shape is tried first and its
result is final.  (a) When the leftmost English-shaped match has a
recognized month word, the zero-padded `YYYY-MM-DD` string is returned.
(b) When no English-shaped substring exists, the leftmost Chinese date
`YYYY年M月D日` is formatted.  (c) When neither shape occurs the result is
`None`.  (d) When the leftmost English-shaped match has an unrecognized
month word the result is `None`, even if a Chinese (or a later English)
date is present. -/
theorem claimC5 :
    (∀ (s : Str) (i : Nat) (g : Str × Str × Str) (m : Nat),
      engDateHead (s.drop i) = some g → (∀ j < i, engDateHead (s.drop j) = none) →
      monthMap (lowerStr g.2.1) = some m →
      parseLsdDate s = some (g.2.2 ++ '-' :: (pad2 m ++ '-' :: pad2 (natOfDigits g.1)))) ∧
    (∀ (s : Str) (i : Nat) (g : Str × Str × Str),
      (∀ j, engDateHead (s.drop j) = none) →
      chDateHead (s.drop i) = some g → (∀ j < i, chDateHead (s.drop j) = none) →
      parseLsdDate s =
        some (g.1 ++ '-' :: (pad2 (natOfDigits g.2.1) ++ '-' :: pad2 (natOfDigits g.2.2)))) ∧
    (∀ s : Str, (∀ j, engDateHead (s.drop j) = none) → (∀ j, chDateHead (s.drop j) = none) →
      parseLsdDate s = none) ∧
    (∀ (s : Str) (i : Nat) (g : Str × Str × Str),
      engDateHead (s.drop i) = some g → (∀ j < i, engDateHead (s.drop j) = none) →
      monthMap (lowerStr g.2.1) = none → parseLsdDate s = none) := by
  refine ⟨?_, ?_, ?_, ?_⟩
  · intro s i g m hi hmin hm
    simp only [parseLsdDate, engDateSearch_at s i g hi hmin, parseEnglishDate, hm]
  · intro s i g heng hi hmin
    simp only [parseLsdDate, engDateSearch_none s heng,
      chDateSearch_at s i g hi hmin, parseChineseDate]
  · intro s heng hch
    simp only [parseLsdDate, engDateSearch_none s heng, chDateSearch_none s hch]
  · intro s i g hi hmin hm
    simp only [parseLsdDate, engDateSearch_at s i g hi hmin, parseEnglishDate, hm]

/-- Witness for C5 on the English branch of an LSD annotation. -/
theorem claimC5_witness :
    engDateHead ("(LSD: 30 June 2025)".data.drop 6) =
      some ("30".data, "June".data, "2025".data) ∧
    monthMap (lowerStr "June".data) = some 6 ∧
    parseLsdDate "(LSD: 30 June 2025)".data = some "2025-06-30".data := by
  refine ⟨by decide, by decide, ?_⟩
  have h := claimC5.1 "(LSD: 30 June 2025)".data 6
    ("30".data, "June".data, "2025".data) 6 (by decide) (by decide) (by decide)
  exact h.trans (by decide)

/-- Counterexample to C5 as stated: the input `1 xyz 2024 2025年3月4日`
contains a Chinese date of the required shape, but because the English
pattern matches `1 xyz 2024` first and `xyz` is not a month word,
`_parse_lsd_date` returns `None` instead of `2025-03-04`. -/
theorem claimC5_counterexample :
    chDateSearch "1 xyz 2024 2025年3月4日".data =
      some ("2025".data, "3".data, "4".data) ∧
    parseLsdDate "1 xyz 2024 2025年3月4日".data = none := by
  constructor
  · decide
  · decide

theorem selectRow_row (sheet : Sheet) (pf : Option Str) (strike : List (Nat × List Str))
    (r : Nat) (it : RowItem) (h : selectRow sheet pf strike r = some it) : it.row = r := by
  rcases hc : sheet.cell r 3 with - | p
  · simp [selectRow, hc] at h
  · simp only [selectRow, hc] at h
    by_cases hp : p = []
    · simp [hp] at h
    rw [if_neg hp] at h
    by_cases hf : projFilterSkips pf p = true
    · simp [hf] at h
    rw [if_neg hf] at h
    by_cases hfee : (pyOrEmpty (sheet.cell r 9) ≠ [] ∧ 10 < (pyOrEmpty (sheet.cell r 9)).length)
    · rw [if_pos hfee] at h
      cases h
      rfl
    · rw [if_neg hfee] at h
      cases h

theorem selectRow_some_iff (sheet : Sheet) (pf : Option Str) (strike : List (Nat × List Str))
    (r : Nat) :
    (∃ it, selectRow sheet pf strike r = some it) ↔
      (∃ p, sheet.cell r 3 = some p ∧ p ≠ [] ∧ projFilterSkips pf p = false ∧
        10 < (pyOrEmpty (sheet.cell r 9)).length) := by
  constructor
  · rintro ⟨it, h⟩
    rcases hc : sheet.cell r 3 with - | p
    · simp [selectRow, hc] at h
    · simp only [selectRow, hc] at h
      by_cases hp : p = []
      · simp [hp] at h
      rw [if_neg hp] at h
      by_cases hf : projFilterSkips pf p = true
      · simp [hf] at h
      rw [if_neg hf] at h
      by_cases hfee : (pyOrEmpty (sheet.cell r 9) ≠ [] ∧ 10 < (pyOrEmpty (sheet.cell r 9)).length)
      · exact ⟨p, rfl, hp, by simpa using hf, hfee.2⟩
      · rw [if_neg hfee] at h
        cases h
  · rintro ⟨p, hc, hp, hf, hlen⟩
    refine ⟨{ row := r, project := p, cmNo := pyStrip (pyOrEmpty (sheet.cell r 5)),
              text := pyOrEmpty (sheet.cell r 9), struckSet := rowStruck strike r }, ?_⟩
    have hfee : pyOrEmpty (sheet.cell r 9) ≠ [] := by
      intro h0
      rw [h0] at hlen
      simp at hlen
    simp only [selectRow, hc]
    rw [if_neg hp, if_neg (by simp [hf]), if_pos ⟨hfee, hlen⟩]

theorem map_filterMap_sublist {α β : Type} (f : α → Option β) (g : β → α)
    (h : ∀ a b, f a = some b → g b = a) :
    ∀ l : List α, ((l.filterMap f).map g).Sublist l := by
  intro l
  induction l with
  | nil => simp
  | cons a t ih =>
    rw [List.filterMap_cons]
    cases hfa : f a with
    | none => exact ih.cons a
    | some b =>
      rw [List.map_cons, h a b hfa]
      exact ih.cons₂ a

theorem applyLimit_sublist (l : List RowItem) (limit : Option Int) :
    (applyLimit l limit).Sublist l := by
  rcases limit with - | n
  · exact List.Sublist.refl l
  · rw [applyLimit]
    by_cases hn : n ≠ 0
    · rw [if_pos hn, pySliceTo]
      by_cases h0 : (0 : Int) ≤ n
      · rw [if_pos h0]; exact List.take_sublist _ _
      · rw [if_neg h0]; exact List.take_sublist _ _
    · rw [if_neg hn]

/-- C9 amended (batch scan): `main` processes worksheet rows in strictly
increasing order within rows 5..max_row; a row is selected exactly when its
column-3 project cell is a non-empty string, it passes the optional
case-insensitive `--project` substring filter, and its column-9 fee text
(rendered as a string) is longer than 10 characters; `--limit N` with
positive N keeps only the first N selected rows, while an absent or zero
limit (zero being falsy in Python) leaves all selected rows. -/
theorem claimC9 (sheet : Sheet) (pf : Option Str) (strike : List (Nat × List Str)) :
    (∀ limit, List.Pairwise (· < ·) ((mainRows sheet pf strike limit).map RowItem.row)) ∧
    (∀ limit, ∀ it ∈ mainRows sheet pf strike limit, 5 ≤ it.row ∧ it.row ≤ sheet.maxRow) ∧
    (∀ r, 5 ≤ r → r ≤ sheet.maxRow →
      ((∃ it ∈ collectRows sheet pf strike, it.row = r) ↔
        ∃ p, sheet.cell r 3 = some p ∧ p ≠ [] ∧ projFilterSkips pf p = false ∧
          10 < (pyOrEmpty (sheet.cell r 9)).length)) ∧
    (∀ n : Int, 0 < n →
      mainRows sheet pf strike (some n) = (collectRows sheet pf strike).take n.toNat) ∧
    mainRows sheet pf strike none = collectRows sheet pf strike ∧
    mainRows sheet pf strike (some 0) = collectRows sheet pf strike := by
  have hsub : ((collectRows sheet pf strike).map RowItem.row).Sublist
      (List.range' 5 (sheet.maxRow + 1 - 5)) :=
    map_filterMap_sublist _ _ (fun a b hab => selectRow_row sheet pf strike a b hab) _
  refine ⟨?_, ?_, ?_, ?_, rfl, rfl⟩
  · intro limit
    have h1 : ((mainRows sheet pf strike limit).map RowItem.row).Sublist
        ((collectRows sheet pf strike).map RowItem.row) :=
      (applyLimit_sublist _ _).map _
    exact ((List.pairwise_lt_range' 5 _ 1).sublist (h1.trans hsub))
  · intro limit it hit
    have hit' : it ∈ collectRows sheet pf strike :=
      (applyLimit_sublist _ limit).subset hit
    rcases List.mem_filterMap.mp hit' with ⟨a, ha, hsel⟩
    have hrow := selectRow_row sheet pf strike a it hsel
    rcases List.mem_range'_1.mp ha with ⟨h5, hlt⟩
    omega
  · intro r h5 hmax
    constructor
    · rintro ⟨it, hit, hrow⟩
      rcases List.mem_filterMap.mp hit with ⟨a, _, hsel⟩
      have := selectRow_row sheet pf strike a it hsel
      rw [← this, hrow] at hsel
      exact (selectRow_some_iff sheet pf strike r).mp ⟨it, hsel⟩
    · intro hcond
      rcases (selectRow_some_iff sheet pf strike r).mpr hcond with ⟨it, hsel⟩
      refine ⟨it, List.mem_filterMap.mpr ⟨r, ?_, hsel⟩,
        selectRow_row sheet pf strike r it hsel⟩
      exact List.mem_range'_1.mpr ⟨h5, by omega⟩
  · intro n hn
    rw [mainRows, applyLimit, if_pos (by omega : n ≠ 0), pySliceTo, if_pos (le_of_lt hn)]

/-- Witness for C9 on `sampleSheet`: row 5 satisfies the selection
condition, and a positive limit truncates. -/
theorem claimC9_witness :
    ((∃ it ∈ collectRows sampleSheet none [], it.row = 5) ↔
      (∃ p, sampleSheet.cell 5 3 = some p ∧ p ≠ [] ∧ projFilterSkips none p = false ∧
        10 < (pyOrEmpty (sampleSheet.cell 5 9)).length)) ∧
    mainRows sampleSheet none [] (some 1) =
      (collectRows sampleSheet none []).take (1 : Int).toNat :=
  ⟨(claimC9 sampleSheet none []).2.2.1 5 (by decide) (by decide),
   (claimC9 sampleSheet none []).2.2.2.1 1 (by decide)⟩

/-- Counterexample to C9 as stated: with `--limit 0` the guard
`if args.limit:` is falsy, so no truncation happens and all selected rows
are processed instead of the first 0; on `sampleSheet` one row is selected
and it is still processed. -/
theorem claimC9_counterexample :
    mainRows sampleSheet none [] (some 0) = collectRows sampleSheet none [] ∧
    (collectRows sampleSheet none []).length = 1 := by
  constructor
  · rfl
  · decide

theorem map_noop {α : Type} (f : α → α) :
    ∀ l : List α, (∀ a ∈ l, f a = a) → l.map f = l := by
  intro l
  induction l with
  | nil => intro _; rfl
  | cons a t ih =>
    intro h
    rw [List.map_cons, h a (List.mem_cons_self _ _),
      ih (fun x hx => h x (List.mem_cons_of_mem _ hx))]

theorem strikeUpdate_sameTables (db : StrikeDB) (pid : Nat) (ov : Str) (now : Nat) :
    sameTables (strikeUpdate db pid ov now).1 db := ⟨rfl, rfl, rfl⟩

theorem sameTables_refl (db : StrikeDB) : sameTables db db := ⟨rfl, rfl, rfl⟩

theorem sameTables_trans {a b c : StrikeDB} (h1 : sameTables a b) (h2 : sameTables b c) :
    sameTables a c :=
  ⟨h1.1.trans h2.1, h1.2.1.trans h2.2.1, h1.2.2.trans h2.2.2⟩

theorem feeIds_eq_of_sameTables {a b : StrikeDB} (h : sameTables a b) (pid : Nat) :
    feeIdsOfProject a pid = feeIdsOfProject b pid := by
  rw [feeIdsOfProject, feeIdsOfProject, h.2.2, h.2.1]

theorem projectLookup_eq_of_sameTables {a b : StrikeDB} (h : sameTables a b) (name : Str) :
    projectLookup a name = projectLookup b name := by
  rw [projectLookup, projectLookup, h.1]

theorem strikeUpdateIds_sameTables (pid now : Nat) :
    ∀ (ids : List Str) (db : StrikeDB), sameTables (strikeUpdateIds pid now db ids).1 db := by
  intro ids
  induction ids with
  | nil => intro db; exact sameTables_refl db
  | cons mid rest ih =>
    intro db
    simp only [strikeUpdateIds]
    exact sameTables_trans (ih _) (strikeUpdate_sameTables db pid _ now)

theorem strikeUpdateProject_sameTables (now : Nat) (db : StrikeDB) (name : Str)
    (ids : List Str) : sameTables (strikeUpdateProject now db name ids).1 db := by
  rcases hl : projectLookup db name with - | pid
  · simp only [strikeUpdateProject, hl]
    exact sameTables_refl db
  · simp only [strikeUpdateProject, hl]
    exact strikeUpdateIds_sameTables pid now ids db

theorem updateGo_sameTables (now : Nat) :
    ∀ (input : List (Str × List Str)) (db : StrikeDB),
      sameTables (updateDatabaseGo now db input).1 db := by
  intro input
  induction input with
  | nil => intro db; exact sameTables_refl db
  | cons it rest ih =>
    intro db
    rcases it with ⟨name, ids⟩
    simp only [updateDatabaseGo]
    exact sameTables_trans (ih _) (strikeUpdateProject_sameTables now db name ids)

theorem strikeDone_after (db : StrikeDB) (pid : Nat) (ov : Str) (now : Nat) :
    strikeDone (strikeUpdate db pid ov now).1 pid ov := by
  intro r hr hfee hord
  have hfee' : r.feeId ∈ feeIdsOfProject db pid := by
    rwa [feeIds_eq_of_sameTables (strikeUpdate_sameTables db pid ov now) pid] at hfee
  rcases List.mem_map.mp hr with ⟨r0, hr0, heq⟩
  by_cases hw : strikeWhere db pid ov r0 = true
  · rw [← heq, if_pos hw]
  · rw [if_neg hw] at heq
    subst heq
    cases hcomp : r0.completed
    · exact absurd (by simp [strikeWhere, hfee', hord, hcomp]) hw
    · rfl

theorem strikeDone_mono (db : StrikeDB) (pid : Nat) (ov : Str) (now : Nat)
    (p' : Nat) (o' : Str) (h : strikeDone db p' o') :
    strikeDone (strikeUpdate db pid ov now).1 p' o' := by
  intro r hr hfee hord
  have hfee' : r.feeId ∈ feeIdsOfProject db p' := by
    rwa [feeIds_eq_of_sameTables (strikeUpdate_sameTables db pid ov now) p'] at hfee
  rcases List.mem_map.mp hr with ⟨r0, hr0, heq⟩
  by_cases hw : strikeWhere db pid ov r0 = true
  · rw [← heq, if_pos hw]
  · rw [if_neg hw] at heq
    subst heq
    exact h r0 hr0 hfee' hord

theorem strikeUpdate_done_noop (db : StrikeDB) (pid : Nat) (ov : Str) (now : Nat)
    (h : strikeDone db pid ov) : strikeUpdate db pid ov now = (db, 0) := by
  have hw : ∀ r ∈ db.milestones, strikeWhere db pid ov r = false := by
    intro r hr
    by_cases h1 : r.feeId ∈ feeIdsOfProject db pid
    · by_cases h2 : r.ordinal = ov
      · have h3 := h r hr h1 h2
        simp [strikeWhere, h3]
      · simp [strikeWhere, h2]
    · simp [strikeWhere, h1]
  have hmap : (db.milestones.map (fun r =>
      if strikeWhere db pid ov r then
        { r with
            completed := true
            completionDate := some now
            completionSource := some "excel_strikethrough".data }
      else r)) = db.milestones :=
    map_noop _ _ (fun r hr => by simp [hw r hr])
  have hfil : db.milestones.filter (strikeWhere db pid ov) = [] := by
    rw [List.filter_eq_nil_iff]
    intro r hr
    simp [hw r hr]
  rw [strikeUpdate, hmap, hfil]
  rfl

theorem strikeUpdateIds_done_mono (pid now : Nat) :
    ∀ (ids : List Str) (db : StrikeDB) (p' : Nat) (o' : Str),
      strikeDone db p' o' → strikeDone (strikeUpdateIds pid now db ids).1 p' o' := by
  intro ids
  induction ids with
  | nil => intro db p' o' h; exact h
  | cons mid rest ih =>
    intro db p' o' h
    simp only [strikeUpdateIds]
    exact ih _ _ _ (strikeDone_mono db pid _ now p' o' h)

theorem strikeUpdateIds_done_after (pid now : Nat) :
    ∀ (ids : List Str) (db : StrikeDB) (mid : Str), mid ∈ ids →
      strikeDone (strikeUpdateIds pid now db ids).1 pid ('(' :: (mid ++ [')'])) := by
  intro ids
  induction ids with
  | nil => intro db mid h; simp at h
  | cons m0 rest ih =>
    intro db mid h
    simp only [strikeUpdateIds]
    rcases List.mem_cons.mp h with h1 | h2
    · subst h1
      exact strikeUpdateIds_done_mono pid now rest _ _ _ (strikeDone_after db pid _ now)
    · exact ih _ mid h2

theorem strikeUpdateIds_done_noop (pid now : Nat) :
    ∀ (ids : List Str) (db : StrikeDB),
      (∀ mid ∈ ids, strikeDone db pid ('(' :: (mid ++ [')']))) →
      strikeUpdateIds pid now db ids = (db, 0) := by
  intro ids
  induction ids with
  | nil => intro db _; rfl
  | cons mid rest ih =>
    intro db h
    simp only [strikeUpdateIds]
    rw [strikeUpdate_done_noop db pid _ now (h mid (List.mem_cons_self _ _)),
      ih db (fun m hm => h m (List.mem_cons_of_mem _ hm))]
    rfl

theorem updateGo_done_mono (now : Nat) :
    ∀ (input : List (Str × List Str)) (db : StrikeDB) (p' : Nat) (o' : Str),
      strikeDone db p' o' → strikeDone (updateDatabaseGo now db input).1 p' o' := by
  intro input
  induction input with
  | nil => intro db p' o' h; exact h
  | cons it rest ih =>
    intro db p' o' h
    rcases it with ⟨name, ids⟩
    simp only [updateDatabaseGo]
    apply ih
    rcases hl : projectLookup db name with - | pid
    · simpa only [strikeUpdateProject, hl] using h
    · simp only [strikeUpdateProject, hl]
      exact strikeUpdateIds_done_mono pid now ids db p' o' h

theorem updateGo_done_after (now : Nat) :
    ∀ (input : List (Str × List Str)) (db : StrikeDB) (name : Str) (ids : List Str)
      (pid : Nat), (name, ids) ∈ input → projectLookup db name = some pid →
      ∀ mid ∈ ids, strikeDone (updateDatabaseGo now db input).1 pid ('(' :: (mid ++ [')'])) := by
  intro input
  induction input with
  | nil => intro db name ids pid h; simp at h
  | cons it rest ih =>
    intro db name ids pid hmem hlook mid hmid
    rcases it with ⟨n0, ids0⟩
    simp only [updateDatabaseGo]
    rcases List.mem_cons.mp hmem with h1 | h2
    · rw [Prod.mk.injEq] at h1
      obtain ⟨rfl, rfl⟩ := h1
      apply updateGo_done_mono now rest
      simp only [strikeUpdateProject, hlook]
      exact strikeUpdateIds_done_after pid now ids db mid hmid
    · apply ih _ name ids pid h2 _ mid hmid
      rw [projectLookup_eq_of_sameTables (strikeUpdateProject_sameTables now db n0 ids0) name]
      exact hlook

theorem updateGo_done_noop (now : Nat) :
    ∀ (input : List (Str × List Str)) (db : StrikeDB),
      (∀ (name : Str) (ids : List Str) (pid : Nat), (name, ids) ∈ input →
        projectLookup db name = some pid →
        ∀ mid ∈ ids, strikeDone db pid ('(' :: (mid ++ [')']))) →
      updateDatabaseGo now db input = (db, 0) := by
  intro input
  induction input with
  | nil => intro db _; rfl
  | cons it rest ih =>
    intro db h
    rcases it with ⟨n0, ids0⟩
    simp only [updateDatabaseGo]
    have hproj : strikeUpdateProject now db n0 ids0 = (db, 0) := by
      rcases hl : projectLookup db n0 with - | pid
      · simp only [strikeUpdateProject, hl]
      · simp only [strikeUpdateProject, hl]
        exact strikeUpdateIds_done_noop pid now ids0 db
          (fun mid hm => h n0 ids0 pid (List.mem_cons_self _ _) hl mid hm)
    rw [hproj,
      ih db (fun name ids pid hmem hl mid hm =>
        h name ids pid (List.mem_cons_of_mem _ hmem) hl mid hm)]
    rfl

/-- C4 (idempotent completion writes): the completion UPDATE only touches
rows with `completed = FALSE`, so a second `update_database` run with the
same extracted input returns the database unchanged and reports zero
updated rows. -/
theorem claimC4 (db : StrikeDB) (input : List (Str × List Str)) (now1 now2 : Nat) :
    updateDatabase (updateDatabase db input now1).1 input now2 =
      ((updateDatabase db input now1).1, 0) := by
  by_cases hin : input = []
  · subst hin
    rfl
  · rw [updateDatabase, if_neg hin,
      show updateDatabase db input now1 = updateDatabaseGo now1 db input from by
        rw [updateDatabase, if_neg hin]]
    apply updateGo_done_noop
    intro name ids pid hmem hlook mid hmid
    have hlook' : projectLookup db name = some pid := by
      rw [← projectLookup_eq_of_sameTables (updateGo_sameTables now1 input db) name]
      exact hlook
    exact updateGo_done_after now1 input db name ids pid hmem hlook' mid hmid

theorem completionMonotone_refl (l : List BMilestoneRow) : completionMonotone l l := by
  refine ⟨rfl, ?_⟩
  intro i r r' h1 h2 hc
  rw [h1] at h2
  cases h2
  exact hc

theorem completionMonotone_trans {a b c : List BMilestoneRow}
    (h1 : completionMonotone a b) (h2 : completionMonotone b c) :
    completionMonotone a c := by
  refine ⟨h2.1.trans h1.1, ?_⟩
  intro i r r'' ha hc'' hcomp
  rcases hb : b.get? i with - | rb
  · exfalso
    rw [List.get?_eq_none] at hb
    have hia : i < a.length := by
      by_contra hh
      push_neg at hh
      rw [List.get?_eq_none.mpr hh] at ha
      cases ha
    have hba := h1.1
    omega
  · exact h2.2 i rb r'' hb hc'' (h1.2 i r rb ha hb hcomp)

theorem strikeUpdate_monotone (db : StrikeDB) (pid : Nat) (ov : Str) (now : Nat) :
    completionMonotone db.milestones (strikeUpdate db pid ov now).1.milestones := by
  refine ⟨List.length_map _ _, ?_⟩
  intro i r r' h1 h2 hc
  rw [show (strikeUpdate db pid ov now).1.milestones =
      db.milestones.map (fun r =>
        if strikeWhere db pid ov r then
          { r with
              completed := true
              completionDate := some now
              completionSource := some "excel_strikethrough".data }
        else r) from rfl, List.get?_map, h1, Option.map_some'] at h2
  cases h2
  by_cases hw : strikeWhere db pid ov r = true
  · simp [hw]
  · simp [hw, hc]

theorem strikeUpdateIds_monotone (pid now : Nat) :
    ∀ (ids : List Str) (db : StrikeDB),
      completionMonotone db.milestones (strikeUpdateIds pid now db ids).1.milestones := by
  intro ids
  induction ids with
  | nil => intro db; exact completionMonotone_refl _
  | cons mid rest ih =>
    intro db
    simp only [strikeUpdateIds]
    exact completionMonotone_trans (strikeUpdate_monotone db pid _ now) (ih _)

theorem strikeUpdateProject_monotone (now : Nat) (db : StrikeDB) (name : Str)
    (ids : List Str) :
    completionMonotone db.milestones (strikeUpdateProject now db name ids).1.milestones := by
  rcases hl : projectLookup db name with - | pid
  · simp only [strikeUpdateProject, hl]
    exact completionMonotone_refl _
  · simp only [strikeUpdateProject, hl]
    exact strikeUpdateIds_monotone pid now ids db

theorem updateGo_monotone (now : Nat) :
    ∀ (input : List (Str × List Str)) (db : StrikeDB),
      completionMonotone db.milestones (updateDatabaseGo now db input).1.milestones := by
  intro input
  induction input with
  | nil => intro db; exact completionMonotone_refl _
  | cons it rest ih =>
    intro db
    rcases it with ⟨name, ids⟩
    simp only [updateDatabaseGo]
    exact completionMonotone_trans (strikeUpdateProject_monotone now db name ids) (ih _)

theorem sMono_map (l : List SMilestoneRow) (f : SMilestoneRow → SMilestoneRow)
    (hf : ∀ r, r.completed = true → (f r).completed = true) :
    sCompletionMonotone l (l.map f) := by
  intro i r r' h1 h2 hc
  rw [List.get?_map, h1, Option.map_some'] at h2
  cases h2
  exact hf r hc

theorem sMono_map_map (l : List SMilestoneRow) (f g : SMilestoneRow → SMilestoneRow)
    (hf : ∀ r, r.completed = true → (f r).completed = true)
    (hg : ∀ r, r.completed = true → (g r).completed = true) :
    sCompletionMonotone l ((l.map f).map g) := by
  intro i r r' h1 h2 hc
  rw [List.get?_map, List.get?_map, h1, Option.map_some', Option.map_some'] at h2
  cases h2
  exact hg _ (hf r hc)

theorem sMono_append (l x : List SMilestoneRow) : sCompletionMonotone l (l ++ x) := by
  intro i r r' h1 h2 hc
  have hlen : i < l.length := by
    by_contra hh
    push_neg at hh
    rw [List.get?_eq_none.mpr hh] at h1
    cases h1
  rw [List.get?_append hlen, h1] at h2
  cases h2
  exact hc

/-- C6 amended (monotone completion for the cited write operations): the
strikethrough `update_database` (both script copies) never takes a
milestone's completed flag from TRUE back to FALSE, and neither does the
smart updater's `_upsert_milestone` on any non-raising run; the claim's
universal form over all scripts fails, because the kimi-variant milestone
UPDATE assigns the freshly parsed flag unconditionally (see the
counterexample). -/
theorem claimC6 :
    (∀ (db : StrikeDB) (input : List (Str × List Str)) (now : Nat),
      completionMonotone db.milestones ((updateDatabase db input now).1).milestones) ∧
    (∀ (now feeId : Nat) (m : MArg) (db : SmartDB) (st : Stats) (faults : List Bool)
       (db2 : SmartDB) (st2 : Stats) (fs2 : List Bool),
       upsertMilestoneRun now feeId m db st faults = Except.ok (db2, st2, fs2) →
       sCompletionMonotone db.milestones db2.milestones) := by
  constructor
  · intro db input now
    rw [updateDatabase]
    by_cases hin : input = []
    · rw [if_pos hin]
      exact completionMonotone_refl _
    · rw [if_neg hin]
      exact updateGo_monotone now input db
  · intro now feeId m db st faults db2 st2 fs2 h
    rw [upsertMilestoneRun] at h
    split at h
    · cases h
    · split at h
      · rename_i f1 existing hfind
        split at h
        · cases h
        · split at h
          · split at h
            · cases h
            · simp only [Except.ok.injEq, Prod.mk.injEq] at h
              obtain ⟨hdb, -, -⟩ := h
              subst hdb
              refine sMono_map_map db.milestones _ _ ?_ ?_ <;>
                · intro r hc
                  by_cases hm : r.milestoneId = existing.milestoneId <;> simp [hm, hc]
          · simp only [Except.ok.injEq, Prod.mk.injEq] at h
            obtain ⟨hdb, -, -⟩ := h
            subst hdb
            refine sMono_map db.milestones _ ?_
            intro r hc
            by_cases hm : r.milestoneId = existing.milestoneId <;> simp [hm, hc]
      · split at h
        · cases h
        · split at h
          · cases h
          · simp only [Except.ok.injEq, Prod.mk.injEq] at h
            obtain ⟨hdb, -, -⟩ := h
            subst hdb
            exact sMono_append db.milestones _

/-- Witness for C6 on a one-milestone database whose row is completed while
the freshly parsed milestone is not: the non-raising upsert leaves the flag
TRUE. -/
theorem claimC6_witness :
    upsertMilestoneRun 9 1 sampleMArg sampleSmartDB sampleStats [] =
      Except.ok
        ({ sampleSmartDB with
            milestones := [{ sampleSRow with
              title := "t2".data, description := "d2".data, updatedAt := some 9 }] },
         sampleStats, []) ∧
    sCompletionMonotone sampleSmartDB.milestones
      [{ sampleSRow with
          title := "t2".data, description := "d2".data, updatedAt := some 9 }] :=
  ⟨by rfl,
   claimC6.2 9 1 sampleMArg sampleSmartDB sampleStats []
     { sampleSmartDB with
        milestones := [{ sampleSRow with
          title := "t2".data, description := "d2".data, updatedAt := some 9 }] }
     sampleStats [] (by rfl)⟩

/-- Counterexample to C6 as stated: the milestone UPDATE of
update-billing-kimi-fixed.py (lines 410-428) sets `completed = %s` from the
fresh parse, flipping a completed row back to not completed when the parsed
flag is false. -/
theorem claimC6_counterexample :
    ({ description := "d".data, amountValue := none, amountCurrency := none,
       percentValue := none, isPercent := false, completed := true,
       completionSource := some "excel_strikethrough".data, completionDate := some 1,
       updatedAt := 0, sortOrder := 0, rawFragment := "d".data } :
        KMilestoneRow).completed = true ∧
    (kimiFixedMilestoneSet
      { description := "d".data, amountValue := none, amountCurrency := none,
        percentValue := none, isPercent := false, completed := true,
        completionSource := some "excel_strikethrough".data, completionDate := some 1,
        updatedAt := 0, sortOrder := 0, rawFragment := "d".data }
      "d2".data none none none false 3 7).completed = false :=
  ⟨rfl, rfl⟩

theorem upsertMilestoneRun_pure (now feeId : Nat) (m : MArg) (db : SmartDB) (st : Stats)
    (faults : List Bool) (db' : SmartDB) (st' : Stats) (fs' : List Bool)
    (h : upsertMilestoneRun now feeId m db st faults = Except.ok (db', st', fs')) :
    upsertMilestonePure now feeId m db st = some (db', st') := by
  cases hfind : findMilestone db feeId m.ordinal with
  | some existing =>
    by_cases hcond : (m.completed && !existing.completed) = true
    · simp only [upsertMilestoneRun, upsertMilestonePure, hfind, if_pos hcond] at h ⊢
      split at h
      · cases h
      · split at h
        · cases h
        · split at h
          · cases h
          · simp only [Except.ok.injEq, Prod.mk.injEq] at h
            obtain ⟨h1, h2, -⟩ := h
            rw [h1, h2]
    · simp only [upsertMilestoneRun, upsertMilestonePure, hfind, if_neg hcond] at h ⊢
      split at h
      · cases h
      · split at h
        · cases h
        · simp only [Except.ok.injEq, Prod.mk.injEq] at h
          obtain ⟨h1, h2, -⟩ := h
          rw [h1, h2]
  | none =>
    cases hso : sortOrderOf m.ordinal with
    | none =>
      simp only [upsertMilestoneRun, upsertMilestonePure, hfind, hso] at h ⊢
      split at h
      · cases h
      · cases h
    | some so =>
      simp only [upsertMilestoneRun, upsertMilestonePure, hfind, hso] at h ⊢
      split at h
      · cases h
      · split at h
        · cases h
        · simp only [Except.ok.injEq, Prod.mk.injEq] at h
          obtain ⟨h1, h2, -⟩ := h
          rw [h1, h2]

theorem upsertLoopRun_pure (now feeId : Nat) :
    ∀ (ms : List MArg) (db : SmartDB) (st : Stats) (fs : List Bool) (db' : SmartDB)
      (st' : Stats) (fs' : List Bool),
      upsertLoopRun now feeId ms db st fs = Except.ok (db', st', fs') →
      upsertLoopPure now feeId ms db st = some (db', st') := by
  intro ms
  induction ms with
  | nil =>
    intro db st fs db' st' fs' h
    simp only [upsertLoopRun, Except.ok.injEq, Prod.mk.injEq] at h
    obtain ⟨h1, h2, -⟩ := h
    simp only [upsertLoopPure, h1, h2]
  | cons m ms ih =>
    intro db st fs db' st' fs' h
    simp only [upsertLoopRun, upsertLoopPure] at h ⊢
    split at h
    · cases h
    · rename_i r hr
      have hp := upsertMilestoneRun_pure now feeId m db st fs r.1 r.2.1 r.2.2 hr
      rw [hp]
      exact ih r.1 r.2.1 r.2.2 db' st' fs' h

theorem feeStepRun_pure (engId : Nat) (rawText : Str) (lsdDate lsdRaw : Option Str)
    (bonusDesc : Option Str) (bonusUsd bonusCny : Option ℚ) (now : Nat) (db : SmartDB)
    (faults : List Bool) (af : SmartDB × Nat × List Bool)
    (h : feeStepRun engId rawText lsdDate lsdRaw bonusDesc bonusUsd bonusCny now db faults =
      Except.ok af) :
    feeStepPure engId rawText lsdDate lsdRaw bonusDesc bonusUsd bonusCny now db =
      (af.1, af.2.1) := by
  cases hlf : lookupFee db engId with
  | some feeId =>
    simp only [feeStepRun, feeStepPure, hlf] at h ⊢
    split at h
    · cases h
    · simp only [Except.ok.injEq] at h
      subst h
      rfl
  | none =>
    simp only [feeStepRun, feeStepPure, hlf] at h ⊢
    split at h
    · cases h
    · simp only [Except.ok.injEq] at h
      subst h
      rfl

theorem smartUpdateBody_pure (cmNo : Str) (ms : List MArg) (lsdDate lsdRaw : Option Str)
    (bonusUsd bonusCny : Option ℚ) (bonusDesc : Option Str) (rawText : Str) (now : Nat)
    (db : SmartDB) (st : Stats) (faults : List Bool) (db' : SmartDB) (st' : Stats)
    (flag : Bool) (fs' : List Bool)
    (h : smartUpdateBody cmNo ms lsdDate lsdRaw bonusUsd bonusCny bonusDesc rawText now
      db st faults = Except.ok (db', st', flag, fs')) :
    smartUpdatePure cmNo ms lsdDate lsdRaw bonusUsd bonusCny bonusDesc rawText now db st =
      some (db', st', flag) := by
  cases hcm : lookupCm db cmNo with
  | none =>
    simp only [smartUpdateBody, smartUpdatePure, hcm] at h ⊢
    split at h
    · cases h
    · simp only [Except.ok.injEq, Prod.mk.injEq] at h
      obtain ⟨h1, h2, h3, -⟩ := h
      rw [h1, h2, h3]
  | some cmId =>
    cases heng : lookupEng db cmId with
    | none =>
      simp only [smartUpdateBody, smartUpdatePure, hcm, heng] at h ⊢
      split at h
      · cases h
      · split at h
        · cases h
        · simp only [Except.ok.injEq, Prod.mk.injEq] at h
          obtain ⟨h1, h2, h3, -⟩ := h
          rw [h1, h2, h3]
    | some engId =>
      simp only [smartUpdateBody, smartUpdatePure, hcm, heng] at h ⊢
      split at h
      · cases h
      · split at h
        · cases h
        · split at h
          · cases h
          · split at h
            · cases h
            · rename_i af haf
              rw [feeStepRun_pure engId rawText lsdDate lsdRaw bonusDesc bonusUsd bonusCny
                now db _ af haf]
              split at h
              · cases h
              · rename_i r hloop
                have hlp := upsertLoopRun_pure now af.2.1 ms af.1 st af.2.2
                  r.1 r.2.1 r.2.2 hloop
                rw [hlp]
                split at h
                · cases h
                · simp only [Except.ok.injEq, Prod.mk.injEq] at h
                  obtain ⟨h1, h2, h3, -⟩ := h
                  rw [h1, h2, h3]

theorem upsertMilestonePure_errors (now feeId : Nat) (m : MArg) (db : SmartDB) (st : Stats)
    (r : SmartDB × Stats) (h : upsertMilestonePure now feeId m db st = some r) :
    r.2.errors = st.errors := by
  rw [upsertMilestonePure] at h
  split at h
  · split at h
    · simp only [Option.some.injEq] at h
      subst h
      rfl
    · simp only [Option.some.injEq] at h
      subst h
      rfl
  · split at h
    · cases h
    · simp only [Option.some.injEq] at h
      subst h
      rfl

theorem upsertLoopPure_errors (now feeId : Nat) :
    ∀ (ms : List MArg) (db : SmartDB) (st : Stats) (r : SmartDB × Stats),
      upsertLoopPure now feeId ms db st = some r → r.2.errors = st.errors := by
  intro ms
  induction ms with
  | nil =>
    intro db st r h
    simp only [upsertLoopPure, Option.some.injEq] at h
    subst h
    rfl
  | cons m ms ih =>
    intro db st r h
    simp only [upsertLoopPure] at h
    split at h
    · cases h
    · rename_i r1 hr1
      rw [ih r1.1 r1.2 r h, upsertMilestonePure_errors now feeId m db st r1 hr1]

theorem smartUpdatePure_errors (cmNo : Str) (ms : List MArg) (lsdDate lsdRaw : Option Str)
    (bonusUsd bonusCny : Option ℚ) (bonusDesc : Option Str) (rawText : Str) (now : Nat)
    (db : SmartDB) (st : Stats) (r : SmartDB × Stats × Bool)
    (h : smartUpdatePure cmNo ms lsdDate lsdRaw bonusUsd bonusCny bonusDesc rawText now
      db st = some r) : r.2.1.errors = st.errors := by
  simp only [smartUpdatePure] at h
  split at h
  · simp only [Option.some.injEq] at h
    subst h
    rfl
  · split at h
    · simp only [Option.some.injEq] at h
      subst h
      rfl
    · split at h
      · cases h
      · rename_i r1 hr1
        simp only [Option.some.injEq] at h
        subst h
        exact upsertLoopPure_errors now _ ms _ st r1 hr1

theorem smartUpdatePure_noflag (cmNo : Str) (ms : List MArg) (lsdDate lsdRaw : Option Str)
    (bonusUsd bonusCny : Option ℚ) (bonusDesc : Option Str) (rawText : Str) (now : Nat)
    (db : SmartDB) (st : Stats) (db' : SmartDB) (st' : Stats)
    (h : smartUpdatePure cmNo ms lsdDate lsdRaw bonusUsd bonusCny bonusDesc rawText now
      db st = some (db', st', false)) : db' = db ∧ st' = st := by
  simp only [smartUpdatePure] at h
  split at h
  · simp only [Option.some.injEq, Prod.mk.injEq] at h
    exact ⟨h.1.symm, h.2.1.symm⟩
  · split at h
    · simp only [Option.some.injEq, Prod.mk.injEq] at h
      exact ⟨h.1.symm, h.2.1.symm⟩
    · split at h
      · cases h
      · simp only [Option.some.injEq, Prod.mk.injEq] at h
        exact absurd h.2.2 (by simp)

theorem upsertMilestoneRun_err (now feeId : Nat) (m : MArg) (db : SmartDB) (st : Stats)
    (faults : List Bool) (stR : Stats)
    (h : upsertMilestoneRun now feeId m db st faults = Except.error stR) : stR = st := by
  rw [upsertMilestoneRun] at h
  split at h
  · simp only [Except.error.injEq] at h
    exact h.symm
  · split at h
    · split at h
      · simp only [Except.error.injEq] at h
        exact h.symm
      · split at h
        · split at h
          · simp only [Except.error.injEq] at h
            exact h.symm
          · cases h
        · cases h
    · split at h
      · simp only [Except.error.injEq] at h
        exact h.symm
      · split at h
        · simp only [Except.error.injEq] at h
          exact h.symm
        · cases h

theorem upsertLoopRun_err (now feeId : Nat) :
    ∀ (ms : List MArg) (db : SmartDB) (st : Stats) (fs : List Bool) (stR : Stats),
      upsertLoopRun now feeId ms db st fs = Except.error stR → stR.errors = st.errors := by
  intro ms
  induction ms with
  | nil =>
    intro db st fs stR h
    simp [upsertLoopRun] at h
  | cons m ms ih =>
    intro db st fs stR h
    simp only [upsertLoopRun] at h
    split at h
    · rename_i stR1 hR1
      simp only [Except.error.injEq] at h
      rw [← h, upsertMilestoneRun_err now feeId m db st fs stR1 hR1]
    · rename_i r hr
      exact (ih r.1 r.2.1 r.2.2 stR h).trans
        (upsertMilestonePure_errors now feeId m db st (r.1, r.2.1)
          (upsertMilestoneRun_pure now feeId m db st fs r.1 r.2.1 r.2.2 hr))

theorem smartUpdateBody_err (cmNo : Str) (ms : List MArg) (lsdDate lsdRaw : Option Str)
    (bonusUsd bonusCny : Option ℚ) (bonusDesc : Option Str) (rawText : Str) (now : Nat)
    (db : SmartDB) (st : Stats) (faults : List Bool) (stR : Stats)
    (h : smartUpdateBody cmNo ms lsdDate lsdRaw bonusUsd bonusCny bonusDesc rawText now
      db st faults = Except.error stR) : stR.errors = st.errors := by
  rw [smartUpdateBody] at h
  split at h
  · simp only [Except.error.injEq] at h
    rw [← h]
  · split at h
    · cases h
    · split at h
      · simp only [Except.error.injEq] at h
        rw [← h]
      · split at h
        · cases h
        · split at h
          · simp only [Except.error.injEq] at h
            rw [← h]
          · split at h
            · simp only [Except.error.injEq] at h
              rw [← h]
            · split at h
              · rename_i stR1 hloop
                simp only [Except.error.injEq] at h
                rw [← h]
                exact upsertLoopRun_err now _ ms _ st _ stR1 hloop
              · rename_i r hloop
                split at h
                · simp only [Except.error.injEq] at h
                  rw [← h]
                  exact upsertLoopPure_errors now _ ms _ st (r.1, r.2.1)
                    (upsertLoopRun_pure now _ ms _ st _ r.1 r.2.1 r.2.2 hloop)
                · cases h

/-- C7 (per-row atomicity): whatever fault schedule the connection follows,
if any call inside `DatabaseUpdater.update` raises, the transaction is
rolled back: the committed database is unchanged and the error counter is
incremented on top of the statistics as they stood at the raise (the stats
dict itself is not transactional, so created/updated increments made before
the raise persist, but no error increment is lost or doubled).  If the body
runs to the commit, the committed database equals the fault-free
application of all of the row's writes (the fee insert/update plus every
milestone upsert, `smartUpdatePure`) and the error counter is unchanged; on
the early-return paths nothing was written at all. -/
theorem claimC7 (cmNo : Str) (ms : List MArg) (lsdDate lsdRaw : Option Str)
    (bonusUsd bonusCny : Option ℚ) (bonusDesc : Option Str) (rawText : Str) (now : Nat)
    (conn : Conn) (st : Stats) (faults : List Bool) :
    (∀ stRaise : Stats,
      smartUpdateBody cmNo ms lsdDate lsdRaw bonusUsd bonusCny bonusDesc rawText now
        conn.working st faults = Except.error stRaise →
      stRaise.errors = st.errors ∧
      smartUpdate cmNo ms lsdDate lsdRaw bonusUsd bonusCny bonusDesc rawText now
          conn st faults =
        ({ committed := conn.committed, working := conn.committed },
         { stRaise with errors := stRaise.errors + 1 })) ∧
    (∀ (db' : SmartDB) (st' : Stats) (flag : Bool) (fs' : List Bool),
      smartUpdateBody cmNo ms lsdDate lsdRaw bonusUsd bonusCny bonusDesc rawText now
        conn.working st faults = Except.ok (db', st', flag, fs') →
      smartUpdatePure cmNo ms lsdDate lsdRaw bonusUsd bonusCny bonusDesc rawText now
          conn.working st = some (db', st', flag) ∧
      st'.errors = st.errors ∧
      (flag = true →
        smartUpdate cmNo ms lsdDate lsdRaw bonusUsd bonusCny bonusDesc rawText now
          conn st faults = ({ committed := db', working := db' }, st')) ∧
      (flag = false → db' = conn.working ∧ st' = st ∧
        smartUpdate cmNo ms lsdDate lsdRaw bonusUsd bonusCny bonusDesc rawText now
          conn st faults =
          ({ committed := conn.committed, working := conn.working }, st))) := by
  constructor
  · intro stRaise he
    refine ⟨smartUpdateBody_err cmNo ms lsdDate lsdRaw bonusUsd bonusCny bonusDesc rawText
      now conn.working st faults stRaise he, ?_⟩
    rw [smartUpdate, he]
  · intro db' st' flag fs' hok
    have hpure := smartUpdateBody_pure cmNo ms lsdDate lsdRaw bonusUsd bonusCny bonusDesc
      rawText now conn.working st faults db' st' flag fs' hok
    refine ⟨hpure,
      smartUpdatePure_errors cmNo ms lsdDate lsdRaw bonusUsd bonusCny bonusDesc rawText
        now conn.working st (db', st', flag) hpure, ?_, ?_⟩
    · intro hflag
      subst hflag
      rw [smartUpdate, hok]
      rfl
    · intro hflag
      subst hflag
      obtain ⟨hdb, hst⟩ := smartUpdatePure_noflag cmNo ms lsdDate lsdRaw bonusUsd bonusCny
        bonusDesc rawText now conn.working st db' st' hpure
      subst hdb
      subst hst
      exact ⟨rfl, rfl, by rw [smartUpdate, hok]; rfl⟩

/-- C8 (best-effort skipping): when the C/M number has no row, or its C/M
has no engagement, `DatabaseUpdater.update` returns without raising, without
any insert or update, and without touching the statistics: the body
succeeds with the untouched database and the no-commit flag, and the
connection ends with both states equal to the original database. -/
theorem claimC8 (cmNo : Str) (ms : List MArg) (lsdDate lsdRaw : Option Str)
    (bonusUsd bonusCny : Option ℚ) (bonusDesc : Option Str) (rawText : Str) (now : Nat)
    (db : SmartDB) (st : Stats)
    (h : lookupCm db cmNo = none ∨
      (∃ cmId, lookupCm db cmNo = some cmId ∧ lookupEng db cmId = none)) :
    smartUpdateBody cmNo ms lsdDate lsdRaw bonusUsd bonusCny bonusDesc rawText now
      db st [] = Except.ok (db, st, false, []) ∧
    smartUpdate cmNo ms lsdDate lsdRaw bonusUsd bonusCny bonusDesc rawText now
      { committed := db, working := db } st [] = ({ committed := db, working := db }, st) := by
  have hbody : smartUpdateBody cmNo ms lsdDate lsdRaw bonusUsd bonusCny bonusDesc rawText
      now db st [] = Except.ok (db, st, false, []) := by
    rcases h with hcm | ⟨cmId, hcm, heng⟩
    · simp only [smartUpdateBody, execStep, hcm]
    · simp only [smartUpdateBody, execStep, hcm, heng]
  refine ⟨hbody, ?_⟩
  rw [smartUpdate]
  simp only at hbody ⊢
  rw [hbody]
  rfl

/-- Witness for C7: on the sample database, a fault on the first SELECT
rolls back and bumps the error counter, while a fault-free run commits the
fee insert and the milestone update together. -/
theorem claimC7_witness :
    (smartUpdate "12345-001".data [sampleMArg] none none none none none "raw".data 9
        { committed := sampleSmartDB, working := sampleSmartDB } sampleStats [true] =
      ({ committed := sampleSmartDB, working := sampleSmartDB },
       { created := 0, updated := 0, errors := 1 })) ∧
    (smartUpdate "12345-001".data [sampleMArg] none none none none none "raw".data 9
        { committed := sampleSmartDB, working := sampleSmartDB } sampleStats [] =
      ({ committed :=
          { cmNos := [(1, "12345-001".data)], engagements := [(1, 1)],
            fees := [{ feeId := 1, engagementId := 1, rawText := "raw".data,
                       lsdDate := none, lsdRaw := none, bonusDescription := none,
                       bonusUsd := none, bonusCny := none, parsedAt := some 9 }],
            milestones := [{ sampleSRow with
              title := "t2".data, description := "d2".data, updatedAt := some 9 }] }
         working :=
          { cmNos := [(1, "12345-001".data)], engagements := [(1, 1)],
            fees := [{ feeId := 1, engagementId := 1, rawText := "raw".data,
                       lsdDate := none, lsdRaw := none, bonusDescription := none,
                       bonusUsd := none, bonusCny := none, parsedAt := some 9 }],
            milestones := [{ sampleSRow with
              title := "t2".data, description := "d2".data, updatedAt := some 9 }] } },
       sampleStats)) := by
  constructor
  · exact ((claimC7 "12345-001".data [sampleMArg] none none none none none "raw".data 9
      { committed := sampleSmartDB, working := sampleSmartDB } sampleStats [true]).1
      sampleStats (by rfl)).2
  · exact ((claimC7 "12345-001".data [sampleMArg] none none none none none "raw".data 9
      { committed := sampleSmartDB, working := sampleSmartDB } sampleStats []).2
      { cmNos := [(1, "12345-001".data)], engagements := [(1, 1)],
        fees := [{ feeId := 1, engagementId := 1, rawText := "raw".data,
                   lsdDate := none, lsdRaw := none, bonusDescription := none,
                   bonusUsd := none, bonusCny := none, parsedAt := some 9 }],
        milestones := [{ sampleSRow with
          title := "t2".data, description := "d2".data, updatedAt := some 9 }] }
      sampleStats true [] (by rfl)).2.2.1 rfl

/-- Witness for C8: a C/M number absent from the sample database makes the
updater return with nothing written. -/
theorem claimC8_witness :
    lookupCm sampleSmartDB "99999-999".data = none ∧
    smartUpdateBody "99999-999".data [sampleMArg] none none none none none "raw".data 9
      sampleSmartDB sampleStats [] = Except.ok (sampleSmartDB, sampleStats, false, []) ∧
    smartUpdate "99999-999".data [sampleMArg] none none none none none "raw".data 9
      { committed := sampleSmartDB, working := sampleSmartDB } sampleStats [] =
      ({ committed := sampleSmartDB, working := sampleSmartDB }, sampleStats) := by
  refine ⟨by rfl, ?_, ?_⟩
  · exact (claimC8 "99999-999".data [sampleMArg] none none none none none "raw".data 9
      sampleSmartDB sampleStats (Or.inl (by rfl))).1
  · exact (claimC8 "99999-999".data [sampleMArg] none none none none none "raw".data 9
      sampleSmartDB sampleStats (Or.inl (by rfl))).2

end StaffingTracker
